import Mathlib

/-!
# Pipeline executor of app-functions-sdk-go

A shallow embedding of `internal/runtime/runtime.go` (`GolangRuntime.ProcessMessage`,
`GolangRuntime.SetTransforms`) and of the delivery sender exercised by
`pkg/transforms/mqtt_test.go`.

Conventions of the embedding:

* a Go `interface{}` is `GoAny = Option Value`; `none` is the nil interface;
* the pipeline context is threaded explicitly through every function call, together
  with a state `σ` standing for everything else a pipeline function may read or write;
* log lines, decoder calls and pipeline-function calls are recorded in the result of a
  run, in the order in which the source performs them;
* the two reflection panics of `ProcessMessage` itself (line 64 on a nil pointer
  `TargetType`, line 116 on a `target` that the CBOR decoder left nil) end a run with
  `panicked = true`.
-/

namespace Runtime

/-- A Go byte slice; every entry stands for one byte. No arithmetic is done on them. -/
abbrev Bytes := List Nat

/-- The part of `models.Event` (go-mod-core-contracts) that the runtime reads: its `ID`,
and the remaining fields kept as one opaque string. -/
structure Event where
  ID : String
  Rest : String
  deriving DecidableEq, Repr

/-- A Go `error`, identified by the text that `Error()` returns. -/
structure GoError where
  Error : String
  deriving DecidableEq, Repr

/-- The Go types that `ProcessMessage` distinguishes by reflection. -/
inductive GoType where
  | byteSlice
  | event
  | named (name : String)
  | ptr (elem : GoType)
  deriving DecidableEq, Repr

/-- The reflection test `reflect.TypeOf(t).Kind() == reflect.Ptr`. -/
def GoType.isPtr : GoType → Bool
  | .ptr _ => true
  | _ => false

/-- A non-nil Go value held in an `interface{}`. `error` stands for every value whose
dynamic type implements the `error` interface. -/
inductive Value where
  | bytes (b : Bytes)
  | str (s : String)
  | event (e : Event)
  | error (e : GoError)
  | object (type : GoType) (repr : String)
  deriving DecidableEq, Repr

/-- A Go `interface{}`: `none` is nil. -/
abbrev GoAny := Option Value

/-- The type assertion `result.(error)`. -/
def Value.asError : Value → Option GoError
  | .error e => some e
  | _ => none

/-- The envelope `types.MessageEnvelope` (go-mod-messaging), the fields that the runtime reads. -/
structure MessageEnvelope where
  Checksum : String
  CorrelationID : String
  Payload : Bytes
  ContentType : String
  deriving DecidableEq, Repr

/-- Modelled from the spec: the retry record that the delivery sender attaches to the
context, declared outside the given sources: payload, destination and timestamp. -/
structure RetryRecord where
  payload : Bytes
  destination : String
  timestamp : Nat
  deriving DecidableEq, Repr

/-- Modelled from the spec: `appcontext.Context` is declared outside the given sources.
It carries the correlation id, the decoded event identifier, the checksum and the
optional retry-data slot. The logging handle is a reference that no call changes; what is
written through it by `ProcessMessage` is recorded in `RunResult.logged`. -/
structure Context where
  CorrelationID : String
  EventID : String
  EventChecksum : String
  RetryData : Option RetryRecord
  deriving DecidableEq, Repr

/-- The struct `MessageError` of runtime.go. -/
structure MessageError where
  Err : GoError
  ErrorCode : Nat
  deriving DecidableEq, Repr

/-- The constant `http.StatusInternalServerError`. -/
def StatusInternalServerError : Nat := 500
/-- The constant `http.StatusBadRequest`. -/
def StatusBadRequest : Nat := 400
/-- The constant `http.StatusUnprocessableEntity`. -/
def StatusUnprocessableEntity : Nat := 422

/-- The constant `clients.ContentTypeJSON`. -/
def ContentTypeJSON : String := "application/json"
/-- The constant `clients.ContentTypeCBOR`. -/
def ContentTypeCBOR : String := "application/cbor"
/-- The constant `clients.ContentType`, the log key of the content type. -/
def ContentTypeKey : String := "Content-Type"
/-- The constant `clients.CorrelationHeader`. -/
def CorrelationHeader : String := "correlation-id"

/-- The constant `unmarshalErrorMessage` of runtime.go applied to a format name. -/
def unmarshalErrorMessage (format : String) : String :=
  "Unable to unmarshal message payload as " ++ format

inductive LogLevel where
  | debug
  | error
  deriving DecidableEq, Repr

/-- One call of the logging client: level, message and the key/value arguments. -/
structure LogEntry where
  level : LogLevel
  message : String
  args : List String
  deriving DecidableEq, Repr

/-- The two decoders the runtime calls. -/
inductive Format where
  | json
  | cbor
  deriving DecidableEq, Repr

/-- The external decoders (`encoding/json`, `ugorji/go/codec`), taken as parameters.
Decoding into a fresh `*models.Event` yields an event, decoding into a fresh pointer to
any other type yields a value of that type; a failure carries the decoder's message.
`json.Unmarshal` is handed the pointer itself (line 78) and cannot take it away. The CBOR
decoder is handed the address of the variable `target` (line 93) and may return without
error having set that variable to nil, as it does on a CBOR null: that is `.ok none`. -/
structure Codec where
  jsonUnmarshalEvent : Bytes → Except String Event
  jsonUnmarshal : GoType → Bytes → Except String Value
  cborDecodeEvent : Bytes → Except String (Option Event)
  cborDecode : GoType → Bytes → Except String (Option Value)

/-- What a pipeline function hands back: the two Go return values, the context it may
have written through the pointer it was given, and the rest of the state. -/
structure FnOut (σ : Type) where
  cont : Bool
  result : GoAny
  ctx : Context
  world : σ

/-- The type `appcontext.AppFunction`: `func(edgexcontext *Context, params ...interface{})
(bool, interface{})`, with the state it acts on made explicit. -/
abbrev AppFunction (σ : Type) := Context → List GoAny → σ → FnOut σ

/-- The value configured as `TargetType`, as far as `ProcessMessage` reads it: its
dynamic type and, when that type is a pointer type, whether the pointer is nil. -/
structure TargetValue where
  type : GoType
  isNil : Bool
  deriving DecidableEq, Repr

/-- The struct `GolangRuntime` of runtime.go. The mutex is not a field of the sequential
model; it is part of the interleaving model in `Registry` below. `TargetType` is `none`
for the nil interface. -/
structure GolangRuntime (σ : Type) where
  TargetType : Option TargetValue
  transforms : List (AppFunction σ)

/-- One invocation of a pipeline function, as it happened in a run. -/
structure Call (σ : Type) where
  index : Nat
  fn : AppFunction σ
  ctx : Context
  args : List GoAny
  cont : Bool
  result : GoAny

/-- The outcome of the decode phase (runtime.go lines 63-116). -/
structure Decoded where
  target : Value
  contentType : String
  ctx : Context
  deriving DecidableEq, Repr

/-- The observable outcome of the function loop (runtime.go lines 118-145). -/
structure LoopResult (σ : Type) where
  err : Option MessageError
  ctx : Context
  world : σ
  logged : List LogEntry
  calls : List (Call σ)

/-- The observable outcome of `ProcessMessage`: whether the call panicked instead of
returning, the returned `*MessageError` (`none` is nil, and `none` when the call
panicked), the runtime's `TargetType` after the call, the context and state after the
call, and what was logged, decoded and invoked, in order. -/
structure RunResult (σ : Type) where
  panicked : Bool
  err : Option MessageError
  targetType : Option TargetValue
  ctx : Context
  world : σ
  logged : List LogEntry
  decodes : List Format
  calls : List (Call σ)

/-- Lines 53-55: a nil `TargetType` is replaced by `&models.Event{}`. -/
def defaultTargetType (t : Option TargetValue) : TargetValue :=
  match t with
  | none => { type := .ptr .event, isNil := false }
  | some t => t

/-- The call `json.Unmarshal(payload, target)` for a fresh `target` of type `*elem`. -/
def unmarshalJSON (codec : Codec) (elem : GoType) (payload : Bytes) : Except String Value :=
  match elem with
  | .event => (codec.jsonUnmarshalEvent payload).map Value.event
  | t => codec.jsonUnmarshal t payload

/-- The call `codec.NewDecoderBytes(payload, &x).Decode(&target)` for a fresh `target`
of type `*elem`; `.ok none` when the decoder returns no error and leaves `target` nil. -/
def decodeCBOR (codec : Codec) (elem : GoType) (payload : Bytes) :
    Except String (Option Value) :=
  match elem with
  | .event => (codec.cborDecodeEvent payload).map (Option.map Value.event)
  | t => codec.cborDecode t payload

/-- Lines 85-89: `event, ok := target.(*models.Event)`; the assertion holds exactly when
the target was allocated as a `*models.Event`, and only then is the event id stamped. -/
def stampEventID (ctx : Context) (elem : GoType) (target : Value) : Context :=
  match elem, target with
  | .event, .event e => { ctx with EventID := e.ID }
  | _, _ => ctx

/-- The arguments of a call, lines 128-132: the previous result alone when it is not nil,
the decoded target and the content type otherwise. -/
def callArgs (target : Value) (contentType : String) (result : GoAny) : List GoAny :=
  match result with
  | some r => [some r]
  | none => [some target, some (.str contentType)]

/-- The log line of a failed stage, lines 136-137. -/
def pipelineErrorEntry (index : Nat) (err : GoError) (envelope : MessageEnvelope) : LogEntry :=
  { level := .error
    message := "Pipeline function #" ++ toString index ++ " resulted in error"
    args := ["error", err.Error, CorrelationHeader, envelope.CorrelationID] }

/-- The loop of lines 127-145 over the copied chain, from position `index` on, with the
current `result`, context and state. -/
def runTransforms {σ : Type} (envelope : MessageEnvelope) (target : Value)
    (contentType : String) :
    List (AppFunction σ) → Nat → GoAny → Context → σ → LoopResult σ
  | [], _, _, ctx, w => { err := none, ctx := ctx, world := w, logged := [], calls := [] }
  | trxFunc :: rest, index, result, ctx, w =>
    let args := callArgs target contentType result
    let out := trxFunc ctx args w
    let call : Call σ :=
      { index := index, fn := trxFunc, ctx := ctx, args := args,
        cont := out.cont, result := out.result }
    if out.cont != true then
      match out.result.bind Value.asError with
      | some err =>
        { err := some { Err := err, ErrorCode := StatusUnprocessableEntity }
          ctx := out.ctx, world := out.world
          logged := [pipelineErrorEntry index err envelope], calls := [call] }
      | none =>
        { err := none, ctx := out.ctx, world := out.world, logged := [], calls := [call] }
    else
      let r := runTransforms envelope target contentType rest (index + 1) out.result
        out.ctx out.world
      { r with calls := call :: r.calls }

/-- How the decode phase ends without a target: with an error returned to the caller
and the line logged for it, or with the panic of line 116
(`reflect.ValueOf(target).Elem()` on a nil `target`), which leaves the context as it was
stamped up to that line. -/
inductive DecodeFailure where
  | returned (err : MessageError) (entry : LogEntry)
  | panicked (ctx : Context)
  deriving DecidableEq, Repr

/-- The outcome of the decode phase: a failure or the decoded target; with the decoder
calls made. -/
structure DecodeResult where
  outcome : Except DecodeFailure Decoded
  decodes : List Format

/-- The decode phase, lines 66-116, for a fresh `target` of type `*elem`. The context is
stamped with the event id (JSON), the checksum (CBOR) and the correlation id; when the
CBOR decoder has left `target` nil, the dereference of line 116 panics after that. -/
def decodeTarget (codec : Codec) (elem : GoType) (ctx : Context)
    (envelope : MessageEnvelope) : DecodeResult :=
  match elem with
  | .byteSlice =>
    { outcome := .ok { target := .bytes envelope.Payload
                       contentType := envelope.ContentType
                       ctx := { ctx with CorrelationID := envelope.CorrelationID } }
      decodes := [] }
  | _ =>
    if envelope.ContentType = ContentTypeJSON then
      match unmarshalJSON codec elem envelope.Payload with
      | .error e =>
        let message := unmarshalErrorMessage "JSON"
        { outcome := .error (.returned
            { Err := ⟨message ++ " : " ++ e⟩, ErrorCode := StatusBadRequest }
            { level := .error, message := message
              args := ["error", e, CorrelationHeader, envelope.CorrelationID] })
          decodes := [.json] }
      | .ok target =>
        { outcome := .ok { target := target
                           contentType := ""
                           ctx := { stampEventID ctx elem target with
                                    CorrelationID := envelope.CorrelationID } }
          decodes := [.json] }
    else if envelope.ContentType = ContentTypeCBOR then
      match decodeCBOR codec elem envelope.Payload with
      | .error e =>
        let message := unmarshalErrorMessage "CBOR"
        { outcome := .error (.returned
            { Err := ⟨message ++ " : " ++ e⟩, ErrorCode := StatusBadRequest }
            { level := .error, message := message
              args := ["error", e, CorrelationHeader, envelope.CorrelationID] })
          decodes := [.cbor] }
      | .ok none =>
        { outcome := .error (.panicked
            { ctx with EventChecksum := envelope.Checksum
                       CorrelationID := envelope.CorrelationID })
          decodes := [.cbor] }
      | .ok (some target) =>
        { outcome := .ok { target := target
                           contentType := ""
                           ctx := { ctx with EventChecksum := envelope.Checksum
                                             CorrelationID := envelope.CorrelationID } }
          decodes := [.cbor] }
    else
      let message := "content type for input data not supported"
      { outcome := .error (.returned
          { Err := ⟨"\x27" ++ envelope.ContentType ++ "\x27 " ++ message⟩
            ErrorCode := StatusBadRequest }
          { level := .error, message := message
            args := [ContentTypeKey, envelope.ContentType, CorrelationHeader,
                     envelope.CorrelationID] })
        decodes := [] }

/-- The debug line of line 51. -/
def processingEntry (n : Nat) : LogEntry :=
  { level := .debug
    message := "Processing message: " ++ toString n ++ " Transforms"
    args := [] }

/-- The text of the configuration error, line 58. -/
def targetTypeError : GoError :=
  ⟨"TargetType must be a pointer, not a value of the target type."⟩

/-- The method `GolangRuntime.ProcessMessage`, runtime.go lines 49-146. A `TargetType`
that is a nil pointer passes the test of line 57 and panics in line 64
(`reflect.ValueOf(gr.TargetType).Elem().Type()`), before anything is decoded. -/
def ProcessMessage {σ : Type} (codec : Codec) (gr : GolangRuntime σ) (edgexcontext : Context)
    (envelope : MessageEnvelope) (w : σ) : RunResult σ :=
  let debug := processingEntry gr.transforms.length
  let targetType := defaultTargetType gr.TargetType
  match targetType.type with
  | .ptr elem =>
    if targetType.isNil then
      { panicked := true, err := none, targetType := some targetType, ctx := edgexcontext
        world := w, logged := [debug], decodes := [], calls := [] }
    else
      let d := decodeTarget codec elem edgexcontext envelope
      match d.outcome with
      | .error (.returned err entry) =>
        { panicked := false, err := some err, targetType := some targetType
          ctx := edgexcontext, world := w
          logged := [debug, entry], decodes := d.decodes, calls := [] }
      | .error (.panicked ctx) =>
        { panicked := true, err := none, targetType := some targetType, ctx := ctx
          world := w, logged := [debug], decodes := d.decodes, calls := [] }
      | .ok dec =>
        let transforms := gr.transforms
        let r := runTransforms envelope dec.target dec.contentType transforms 0 none
          dec.ctx w
        { panicked := false, err := r.err, targetType := some targetType, ctx := r.ctx
          world := r.world, logged := debug :: r.logged, decodes := d.decodes
          calls := r.calls }
  | _ =>
    { panicked := false
      err := some { Err := targetTypeError, ErrorCode := StatusInternalServerError }
      targetType := some targetType, ctx := edgexcontext, world := w
      logged := [debug, { level := .error, message := targetTypeError.Error, args := [] }]
      decodes := [], calls := [] }

/-- The method `GolangRuntime.SetTransforms`, lines 149-153 (its locking is in `Registry`). -/
def SetTransforms {σ : Type} (gr : GolangRuntime σ) (transforms : List (AppFunction σ)) :
    GolangRuntime σ :=
  { gr with transforms := transforms }

/-! ### The state of the loop between two iterations -/

/-- The loop variables `result`, the context behind `edgexcontext`, and the rest of the
state, as they stand before an iteration. -/
structure LoopState (σ : Type) where
  result : GoAny
  ctx : Context
  world : σ

/-- The loop variables on entry to the loop: `result` is nil. -/
def LoopState.initial {σ : Type} (dec : Decoded) (w : σ) : LoopState σ :=
  { result := none, ctx := dec.ctx, world := w }

/-- What the pipeline function `f` returns when the loop calls it in state `st`. -/
def invoke {σ : Type} (target : Value) (contentType : String) (f : AppFunction σ)
    (st : LoopState σ) : FnOut σ :=
  f st.ctx (callArgs target contentType st.result) st.world

/-- The loop variables after a call that returned `out`. -/
def LoopState.after {σ : Type} (out : FnOut σ) : LoopState σ :=
  { result := out.result, ctx := out.ctx, world := out.world }

/-- The state reached after the functions of `fs` have been called in order from `st`
and every one of them returned `continue = true`; `none` when one of them did not. -/
def continueThrough {σ : Type} (target : Value) (contentType : String) :
    List (AppFunction σ) → LoopState σ → Option (LoopState σ)
  | [], st => some st
  | f :: rest, st =>
    let out := invoke target contentType f st
    if out.cont then continueThrough target contentType rest (LoopState.after out) else none

/-! ### The delivery sender -/

/-- Modelled from the spec: the collaborators of the Delivery Sender, which lie outside
the given sources: the structural marshalling of a value (`none` when its type cannot be
serialized), the transport (`none` when the delivery to a destination succeeds, the
transport error otherwise) and the clock. -/
structure Transport where
  marshal : Value → Option Bytes
  deliver : String → Bytes → Option GoError
  now : Nat

/-- Modelled from the spec: `MQTTSender` is declared outside the given sources. Its
connection parameters are fixed at construction; `client` is `none` for a zero-valued
sender. -/
structure MQTTSender where
  client : Option String
  topic : String
  persistOnError : Bool
  deriving DecidableEq, Repr

/-- What a call of the sender leaves behind: its two return values, the context, and
the deliveries it attempted. -/
structure SendOut where
  cont : Bool
  result : GoAny
  ctx : Context
  attempts : List (String × Bytes)
  deriving DecidableEq, Repr

/-- Modelled from the spec: the serialization of the sender's input, which lies outside
the given sources: raw bytes as they are, text as its bytes, any other value through its
structural marshalling. -/
def serialize (t : Transport) : Value → Option Bytes
  | .bytes b => some b
  | .str s => some (s.toUTF8.toList.map UInt8.toNat)
  | v => t.marshal v

/-- Modelled from the spec: `MQTTSender.MQTTSend` lies outside the given sources (only its
test is given). Absent or nil input stops with "No Data Received"; an input that cannot
be serialized stops with the serializable-types error; otherwise the payload is sent: on
success the pipeline continues with a nil result, on failure it stops with the transport
error, after attaching a retry record to the context when persist-on-failure is set. -/
def MQTTSend (t : Transport) (sender : MQTTSender) (ctx : Context) (params : List GoAny) :
    SendOut :=
  match params with
  | [] =>
    { cont := false, result := some (.error ⟨"No Data Received"⟩), ctx := ctx, attempts := [] }
  | none :: _ =>
    { cont := false, result := some (.error ⟨"No Data Received"⟩), ctx := ctx, attempts := [] }
  | some v :: _ =>
    match serialize t v with
    | none =>
      { cont := false
        result := some (.error
          ⟨"passed in data must be of type []byte, string or implement json.Marshaler"⟩)
        ctx := ctx, attempts := [] }
    | some payload =>
      match t.deliver sender.topic payload with
      | none =>
        { cont := true, result := none, ctx := ctx, attempts := [(sender.topic, payload)] }
      | some err =>
        if sender.persistOnError then
          { cont := false, result := some (.error err)
            ctx := { ctx with RetryData := some ⟨payload, sender.topic, t.now⟩ }
            attempts := [(sender.topic, payload)] }
        else
          { cont := false, result := some (.error err), ctx := ctx
            attempts := [(sender.topic, payload)] }

end Runtime

/-! ### The transform registry under interleaving

`ProcessMessage` copies the chain under the mutex `isBusyCopying` (lines 122-125) and
then iterates over its copy (lines 127-143); `SetTransforms` assigns the chain under the
same mutex (lines 150-152). Threads are interleaved at the granularity of these
statements, the element-wise `copy` included. A pipeline function is represented by its
identity; whether it continues or stops is left to the schedule. The unlocked read of
`len(gr.transforms)` in line 51 only feeds a log line and is left out. -/

namespace Registry

/-- The identity of a pipeline function. -/
abbrev Fn := Nat

/-- Where a run of `ProcessMessage` stands: before `Lock` (line 122), before `make`
(line 123), inside `copy` with `j` elements copied into `buf` (line 124), before
`Unlock` (line 125), in the loop before iteration `idx` (line 127), or returned. An
entry `none` of `buf` is a nil function, as `make` leaves it. -/
inductive RunPC where
  | start
  | locked
  | copying (buf : List (Option Fn)) (j : Nat)
  | copied (buf : List (Option Fn))
  | looping (buf : List (Option Fn)) (idx : Nat)
  | done
  deriving DecidableEq, Repr

/-- Where a call of `SetTransforms` stands: before `Lock` (line 150), before the
assignment (line 151), before `Unlock` (line 152), or returned. -/
inductive SetPC where
  | start
  | locked
  | assigned
  | done
  deriving DecidableEq, Repr

/-- A thread is a run of `ProcessMessage` or a call of `SetTransforms`. For a run,
`installed` records the chain that `gr.transforms` held when the run took the lock, and
`invoked` the functions it has called so far; both are observations, no step reads
them. For a call of `SetTransforms`, `chain` is its argument. -/
inductive Thread where
  | run (pc : RunPC) (installed : Option (List Fn)) (invoked : List (Option Fn))
  | set (pc : SetPC) (chain : List Fn)
  deriving DecidableEq, Repr

/-- The shared runtime (`gr.transforms`, the holder of `gr.isBusyCopying`) and the
threads working on it. -/
structure System where
  transforms : List Fn
  lock : Option Nat
  threads : List Thread
  deriving DecidableEq, Repr

/-- Replace the state of thread `tid`. -/
def System.put (s : System) (tid : Nat) (th : Thread) : System :=
  { s with threads := s.threads.set tid th }

/-- One statement of thread `tid`. A thread waiting for a held lock, a returned thread
and a missing thread leave the system as it is. `stop` is what the function called in a
loop iteration answers. -/
def step (s : System) (tid : Nat) (stop : Bool) : System :=
  match s.threads[tid]? with
  | none => s
  | some (.run .start _ invoked) =>
    match s.lock with
    | none => { s.put tid (.run .locked (some s.transforms) invoked) with lock := some tid }
    | some _ => s
  | some (.run .locked installed invoked) =>
    s.put tid (.run (.copying (List.replicate s.transforms.length none) 0) installed invoked)
  | some (.run (.copying buf j) installed invoked) =>
    if j < min buf.length s.transforms.length then
      s.put tid (.run (.copying (buf.set j s.transforms[j]?) (j + 1)) installed invoked)
    else
      s.put tid (.run (.copied buf) installed invoked)
  | some (.run (.copied buf) installed invoked) =>
    { s.put tid (.run (.looping buf 0) installed invoked) with lock := none }
  | some (.run (.looping buf idx) installed invoked) =>
    match buf[idx]? with
    | none => s.put tid (.run .done installed invoked)
    | some trxFunc =>
      if stop then s.put tid (.run .done installed (invoked ++ [trxFunc]))
      else s.put tid (.run (.looping buf (idx + 1)) installed (invoked ++ [trxFunc]))
  | some (.run .done _ _) => s
  | some (.set .start chain) =>
    match s.lock with
    | none => { s.put tid (.set .locked chain) with lock := some tid }
    | some _ => s
  | some (.set .locked chain) =>
    { s.put tid (.set .assigned chain) with transforms := chain }
  | some (.set .assigned chain) =>
    { s.put tid (.set .done chain) with lock := none }
  | some (.set .done _) => s

/-- Run a schedule: a list of thread ids with the answer of the function called, if the
step is a loop iteration. -/
def exec (s : System) : List (Nat × Bool) → System
  | [] => s
  | (tid, stop) :: rest => exec (step s tid stop) rest

/-- A thread that has not started. -/
def Thread.fresh : Thread → Bool
  | .run .start none [] => true
  | .set .start _ => true
  | _ => false

/-- A system in which the lock is free and no thread has started. -/
def System.initial (s : System) : Bool :=
  s.lock.isNone && s.threads.all Thread.fresh

/-- The argument of a call of `SetTransforms`. -/
def Thread.setChain : Thread → Option (List Fn)
  | .set _ chain => some chain
  | .run _ _ _ => none

/-- The chains that are ever installed: the one present at the beginning and the
arguments of the calls of `SetTransforms`. -/
def System.chains (s : System) : List (List Fn) :=
  s.transforms :: s.threads.filterMap Thread.setChain

/-- Whether a thread is between its `Lock` and its `Unlock`. -/
def Thread.holds : Thread → Bool
  | .run .locked _ _ => true
  | .run (.copying _ _) _ _ => true
  | .run (.copied _) _ _ => true
  | .set .locked _ => true
  | .set .assigned _ => true
  | _ => false

/-- What holds of a thread at every moment, given the chains `cands` that are ever
installed and the chain `tr` that the registry holds now. -/
def ThreadOk (cands : List (List Fn)) (tr : List Fn) : Thread → Prop
  | .run .start installed invoked => installed = none ∧ invoked = []
  | .run .locked installed invoked => installed = some tr ∧ invoked = []
  | .run (.copying buf j) installed invoked =>
    installed = some tr ∧ invoked = [] ∧ buf.length = tr.length ∧ j ≤ tr.length ∧
      ∀ i, i < j → buf[i]? = some tr[i]?
  | .run (.copied buf) installed invoked =>
    installed = some tr ∧ invoked = [] ∧ buf = tr.map some
  | .run (.looping buf idx) installed invoked =>
    ∃ chain, installed = some chain ∧ chain ∈ cands ∧ buf = chain.map some ∧
      invoked = (chain.take idx).map some
  | .run .done installed invoked =>
    ∃ chain, installed = some chain ∧ chain ∈ cands ∧ invoked <+: chain.map some
  | .set _ chain => chain ∈ cands

/-- The invariant of the interleaving: the registry holds one of the installed chains,
a thread between `Lock` and `Unlock` is the holder of the lock, and every thread is in
order. -/
def Inv (cands : List (List Fn)) (s : System) : Prop :=
  s.transforms ∈ cands ∧
  ∀ tid th, s.threads[tid]? = some th →
    (th.holds = true → s.lock = some tid) ∧ ThreadOk cands s.transforms th

/-- Two runs and a call of `SetTransforms` on the chain `[1, 2]`. -/
def sampleSystem : System :=
  { transforms := [1, 2], lock := none
    threads := [.run .start none [], .set .start [7, 8, 9], .run .start none []] }

/-- A schedule in which run 0 copies the chain, `SetTransforms` replaces it while run 0
is in its loop, and run 2 starts afterwards. -/
def sampleSchedule : List (Nat × Bool) :=
  [(0, false), (1, false), (0, false), (0, false), (0, false), (0, false), (0, false),
   (1, false), (0, false), (1, false), (1, false), (2, false), (0, false), (2, false),
   (2, false), (2, false), (2, false), (2, false), (2, false), (2, true), (0, false)]

end Registry

namespace Runtime

/-! ### Concrete inputs used to exercise the theorems -/

namespace Sample

/-- A codec that accepts the payload `[1]` as JSON and `[2]` as CBOR, decodes the CBOR
null `[246]` (0xf6) without error to no target, and rejects everything else. -/
def codec : Codec :=
  { jsonUnmarshalEvent := fun b => if b = [1] then .ok ⟨"ev1", ""⟩ else .error "bad json"
    jsonUnmarshal := fun t b => if b = [1] then .ok (.object t "x") else .error "bad json"
    cborDecodeEvent := fun b =>
      if b = [2] then .ok (some ⟨"ev2", ""⟩) else if b = [246] then .ok none
      else .error "bad cbor"
    cborDecode := fun t b =>
      if b = [2] then .ok (some (.object t "y")) else if b = [246] then .ok none
      else .error "bad cbor" }

def ctx : Context :=
  { CorrelationID := "c0", EventID := "e0", EventChecksum := "k0", RetryData := none }

def jsonEnvelope : MessageEnvelope :=
  { Checksum := "chk", CorrelationID := "corr", Payload := [1], ContentType := "application/json" }

def cborEnvelope : MessageEnvelope :=
  { Checksum := "chk", CorrelationID := "corr", Payload := [2], ContentType := "application/cbor" }

def badJsonEnvelope : MessageEnvelope :=
  { Checksum := "chk", CorrelationID := "corr", Payload := [7], ContentType := "application/json" }

def badCborEnvelope : MessageEnvelope :=
  { Checksum := "chk", CorrelationID := "corr", Payload := [7], ContentType := "application/cbor" }

/-- A CBOR envelope whose payload is the single byte 0xf6, the CBOR null. -/
def nullCborEnvelope : MessageEnvelope :=
  { Checksum := "chk", CorrelationID := "corr", Payload := [246]
    ContentType := "application/cbor" }

/-- A nil pointer of type `*models.Event`, as `(*models.Event)(nil)`. -/
def nilEventPointer : TargetValue := { type := .ptr .event, isNil := true }

/-- A nil pointer of type `*[]byte`. -/
def nilBytesPointer : TargetValue := { type := .ptr .byteSlice, isNil := true }

def xmlEnvelope : MessageEnvelope :=
  { Checksum := "chk", CorrelationID := "corr", Payload := [7], ContentType := "text/xml" }

/-- The event that `codec` decodes from `jsonEnvelope`. -/
def decodedEvent : Decoded :=
  { target := .event ⟨"ev1", ""⟩, contentType := ""
    ctx := { CorrelationID := "corr", EventID := "ev1", EventChecksum := "k0", RetryData := none } }

/-- Continues with a nil result. -/
def passNil : AppFunction Unit := fun c _ w => ⟨true, none, c, w⟩

/-- Continues with a text result. -/
def passText : AppFunction Unit := fun c _ w => ⟨true, some (.str "next"), c, w⟩

/-- Stops with an error. -/
def failing : AppFunction Unit := fun c _ w => ⟨false, some (.error ⟨"boom"⟩), c, w⟩

/-- Stops with a nil result, as a filter does. -/
def dropping : AppFunction Unit := fun c _ w => ⟨false, none, c, w⟩

end Sample

/-! ## Theorems -/

/-! ### The decode phase -/

theorem runTransforms_head {σ : Type} (envelope : MessageEnvelope) (target : Value)
    (contentType : String) (f : AppFunction σ) (rest : List (AppFunction σ)) (index : Nat)
    (result : GoAny) (ctx : Context) (w : σ) :
    ∃ cs, (runTransforms envelope target contentType (f :: rest) index result ctx w).calls =
      { index := index, fn := f, ctx := ctx, args := callArgs target contentType result,
        cont := (f ctx (callArgs target contentType result) w).cont,
        result := (f ctx (callArgs target contentType result) w).result } :: cs := by
  simp only [runTransforms]
  split
  · split <;> exact ⟨[], rfl⟩
  · exact ⟨_, rfl⟩

theorem runTransforms_err_code {σ : Type} (envelope : MessageEnvelope) (target : Value)
    (contentType : String) (fs : List (AppFunction σ)) :
    ∀ (index : Nat) (result : GoAny) (ctx : Context) (w : σ) (me : MessageError),
      (runTransforms envelope target contentType fs index result ctx w).err = some me →
      me.ErrorCode = 422 := by
  induction fs with
  | nil => intro index result ctx w me h; simp [runTransforms] at h
  | cons f rest ih =>
    intro index result ctx w me h
    simp only [runTransforms] at h
    split at h
    · split at h
      · simp only [Option.some.injEq] at h
        rw [← h]; rfl
      · simp at h
    · exact ih _ _ _ _ me h

theorem ProcessMessage_of_decoded {σ : Type} (codec : Codec) (gr : GolangRuntime σ)
    (ctx : Context) (envelope : MessageEnvelope) (w : σ) (elem : GoType) (dec : Decoded)
    (hT : defaultTargetType gr.TargetType = ⟨.ptr elem, false⟩)
    (hdec : (decodeTarget codec elem ctx envelope).outcome = .ok dec) :
    ProcessMessage codec gr ctx envelope w =
      let r := runTransforms envelope dec.target dec.contentType gr.transforms 0 none dec.ctx w
      { panicked := false, err := r.err, targetType := some ⟨.ptr elem, false⟩, ctx := r.ctx
        world := r.world, logged := processingEntry gr.transforms.length :: r.logged
        decodes := (decodeTarget codec elem ctx envelope).decodes, calls := r.calls } := by
  simp only [ProcessMessage, hT, hdec, Bool.false_eq_true, if_false]

theorem ProcessMessage_of_decode_error {σ : Type} (codec : Codec) (gr : GolangRuntime σ)
    (ctx : Context) (envelope : MessageEnvelope) (w : σ) (elem : GoType) (err : MessageError)
    (entry : LogEntry)
    (hT : defaultTargetType gr.TargetType = ⟨.ptr elem, false⟩)
    (hdec : (decodeTarget codec elem ctx envelope).outcome = .error (.returned err entry)) :
    ProcessMessage codec gr ctx envelope w =
      { panicked := false, err := some err, targetType := some ⟨.ptr elem, false⟩
        ctx := ctx, world := w
        logged := [processingEntry gr.transforms.length, entry]
        decodes := (decodeTarget codec elem ctx envelope).decodes, calls := [] } := by
  simp only [ProcessMessage, hT, hdec, Bool.false_eq_true, if_false]

/-- C5: when the configured `TargetType` is not nil and not a pointer, `ProcessMessage`
returns (it does not panic) the error "TargetType must be a pointer, not a value of the
target type." with code 500, calls no decoder and no pipeline function, and leaves the
context (and with it its CorrelationID, EventID and EventChecksum), the rest of the state
and the configured `TargetType` as they were. -/
theorem ProcessMessage_non_pointer_target {σ : Type} (codec : Codec) (gr : GolangRuntime σ)
    (ctx : Context) (envelope : MessageEnvelope) (w : σ) (t : TargetValue)
    (hT : gr.TargetType = some t) (hk : t.type.isPtr = false) :
    (ProcessMessage codec gr ctx envelope w).err =
        some { Err := ⟨"TargetType must be a pointer, not a value of the target type."⟩
               ErrorCode := 500 } ∧
      (ProcessMessage codec gr ctx envelope w).decodes = [] ∧
      (ProcessMessage codec gr ctx envelope w).calls = [] ∧
      (ProcessMessage codec gr ctx envelope w).ctx = ctx ∧
      (ProcessMessage codec gr ctx envelope w).world = w ∧
      (ProcessMessage codec gr ctx envelope w).panicked = false ∧
      (ProcessMessage codec gr ctx envelope w).targetType = gr.TargetType := by
  obtain ⟨ty, isNil⟩ := t
  cases ty with
  | ptr elem => simp [GoType.isPtr] at hk
  | byteSlice => simp [ProcessMessage, hT, defaultTargetType, targetTypeError,
      StatusInternalServerError]
  | event => simp [ProcessMessage, hT, defaultTargetType, targetTypeError,
      StatusInternalServerError]
  | named n => simp [ProcessMessage, hT, defaultTargetType, targetTypeError,
      StatusInternalServerError]

theorem ProcessMessage_non_pointer_target_witness :
    (ProcessMessage Sample.codec ⟨some ⟨.event, false⟩, [Sample.passNil]⟩ Sample.ctx
        Sample.jsonEnvelope ()).err =
        some { Err := ⟨"TargetType must be a pointer, not a value of the target type."⟩
               ErrorCode := 500 } ∧
      (ProcessMessage Sample.codec ⟨some ⟨.event, false⟩, [Sample.passNil]⟩ Sample.ctx
        Sample.jsonEnvelope ()).decodes = [] ∧
      (ProcessMessage Sample.codec ⟨some ⟨.event, false⟩, [Sample.passNil]⟩ Sample.ctx
        Sample.jsonEnvelope ()).calls = [] ∧
      (ProcessMessage Sample.codec ⟨some ⟨.event, false⟩, [Sample.passNil]⟩ Sample.ctx
        Sample.jsonEnvelope ()).ctx = Sample.ctx ∧
      (ProcessMessage Sample.codec ⟨some ⟨.event, false⟩, [Sample.passNil]⟩ Sample.ctx
        Sample.jsonEnvelope ()).world = () ∧
      (ProcessMessage Sample.codec ⟨some ⟨.event, false⟩, [Sample.passNil]⟩ Sample.ctx
        Sample.jsonEnvelope ()).panicked = false ∧
      (ProcessMessage Sample.codec ⟨some ⟨.event, false⟩, [Sample.passNil]⟩ Sample.ctx
        Sample.jsonEnvelope ()).targetType = some ⟨.event, false⟩ :=
  ProcessMessage_non_pointer_target Sample.codec ⟨some ⟨.event, false⟩, [Sample.passNil]⟩
    Sample.ctx Sample.jsonEnvelope () ⟨.event, false⟩ rfl rfl

theorem decodeTarget_json_error (codec : Codec) (elem : GoType) (ctx : Context)
    (envelope : MessageEnvelope) (e : String) (hne : elem ≠ .byteSlice)
    (hct : envelope.ContentType = "application/json")
    (hfail : unmarshalJSON codec elem envelope.Payload = .error e) :
    (decodeTarget codec elem ctx envelope).outcome =
      .error (.returned
        { Err := ⟨"Unable to unmarshal message payload as JSON" ++ (" : " ++ e)⟩
          ErrorCode := 400 }
        { level := .error, message := "Unable to unmarshal message payload as JSON"
          args := ["error", e, CorrelationHeader, envelope.CorrelationID] }) := by
  have hmsg : unmarshalErrorMessage "JSON" = "Unable to unmarshal message payload as JSON" := by
    decide
  cases elem <;>
    first
    | exact absurd rfl hne
    | (simp [decodeTarget, hct, ContentTypeJSON, hfail, hmsg, StatusBadRequest]
       rw [← String.append_assoc]; rfl)

theorem decodeTarget_cbor_error (codec : Codec) (elem : GoType) (ctx : Context)
    (envelope : MessageEnvelope) (e : String) (hne : elem ≠ .byteSlice)
    (hct : envelope.ContentType = "application/cbor")
    (hfail : decodeCBOR codec elem envelope.Payload = .error e) :
    (decodeTarget codec elem ctx envelope).outcome =
      .error (.returned
        { Err := ⟨"Unable to unmarshal message payload as CBOR" ++ (" : " ++ e)⟩
          ErrorCode := 400 }
        { level := .error, message := "Unable to unmarshal message payload as CBOR"
          args := ["error", e, CorrelationHeader, envelope.CorrelationID] }) := by
  have hmsg : unmarshalErrorMessage "CBOR" = "Unable to unmarshal message payload as CBOR" := by
    decide
  have hj : ¬ ("application/cbor" = ContentTypeJSON) := by decide
  cases elem <;>
    first
    | exact absurd rfl hne
    | (simp [decodeTarget, hct, hj, ContentTypeCBOR, hfail, hmsg, StatusBadRequest]
       rw [← String.append_assoc]; rfl)

theorem decodeTarget_unsupported (codec : Codec) (elem : GoType) (ctx : Context)
    (envelope : MessageEnvelope) (hne : elem ≠ .byteSlice)
    (hj : envelope.ContentType ≠ "application/json")
    (hc : envelope.ContentType ≠ "application/cbor") :
    (decodeTarget codec elem ctx envelope).outcome =
      .error (.returned
        { Err := ⟨"\x27" ++ (envelope.ContentType ++
            "\x27 content type for input data not supported")⟩
          ErrorCode := 400 }
        { level := .error, message := "content type for input data not supported"
          args := [ContentTypeKey, envelope.ContentType, CorrelationHeader,
                   envelope.CorrelationID] }) := by
  have hq : "\x27 " ++ "content type for input data not supported" =
      "\x27 content type for input data not supported" := by decide
  cases elem <;>
    first
    | exact absurd rfl hne
    | simp [decodeTarget, hj, hc, ContentTypeJSON, ContentTypeCBOR, StatusBadRequest,
        String.append_assoc, hq]

/-- C6, as the code has it: for a `TargetType` that is a pointer other than `*[]byte` and
is not a nil pointer (a nil `TargetType` counts as `&models.Event{}`): when the content type
is application/json and JSON unmarshalling fails with message `e`, the returned error
reads "Unable to unmarshal message payload as JSON" followed by " : " and `e`; when it is
application/cbor and CBOR decoding fails, the same with "CBOR"; for any other content
type it reads "'<contentType>' content type for input data not supported". In all three
cases the call returns, the code is 400 (which is neither 500 nor 422), no pipeline
function is invoked, and the context and the rest of the state stay as they were. -/
theorem ProcessMessage_decode_errors {σ : Type} (codec : Codec) (gr : GolangRuntime σ)
    (ctx : Context) (envelope : MessageEnvelope) (w : σ) (elem : GoType)
    (hT : defaultTargetType gr.TargetType = ⟨.ptr elem, false⟩) (hne : elem ≠ .byteSlice) :
    (envelope.ContentType = "application/json" →
      ∀ e, unmarshalJSON codec elem envelope.Payload = .error e →
        (ProcessMessage codec gr ctx envelope w).err =
          some { Err := ⟨"Unable to unmarshal message payload as JSON" ++ (" : " ++ e)⟩
                 ErrorCode := 400 } ∧
        (ProcessMessage codec gr ctx envelope w).calls = [] ∧
        (ProcessMessage codec gr ctx envelope w).ctx = ctx ∧
        (ProcessMessage codec gr ctx envelope w).world = w ∧
        (ProcessMessage codec gr ctx envelope w).panicked = false) ∧
    (envelope.ContentType = "application/cbor" →
      ∀ e, decodeCBOR codec elem envelope.Payload = .error e →
        (ProcessMessage codec gr ctx envelope w).err =
          some { Err := ⟨"Unable to unmarshal message payload as CBOR" ++ (" : " ++ e)⟩
                 ErrorCode := 400 } ∧
        (ProcessMessage codec gr ctx envelope w).calls = [] ∧
        (ProcessMessage codec gr ctx envelope w).ctx = ctx ∧
        (ProcessMessage codec gr ctx envelope w).world = w ∧
        (ProcessMessage codec gr ctx envelope w).panicked = false) ∧
    (envelope.ContentType ≠ "application/json" → envelope.ContentType ≠ "application/cbor" →
        (ProcessMessage codec gr ctx envelope w).err =
          some { Err := ⟨"\x27" ++ (envelope.ContentType ++
                    "\x27 content type for input data not supported")⟩
                 ErrorCode := 400 } ∧
        (ProcessMessage codec gr ctx envelope w).decodes = [] ∧
        (ProcessMessage codec gr ctx envelope w).calls = [] ∧
        (ProcessMessage codec gr ctx envelope w).ctx = ctx ∧
        (ProcessMessage codec gr ctx envelope w).world = w ∧
        (ProcessMessage codec gr ctx envelope w).panicked = false) ∧
    StatusBadRequest = 400 ∧ StatusBadRequest ≠ StatusInternalServerError ∧
      StatusBadRequest ≠ StatusUnprocessableEntity := by
  refine ⟨?_, ?_, ?_, rfl, by decide, by decide⟩
  · intro hct e hfail
    rw [ProcessMessage_of_decode_error codec gr ctx envelope w elem _ _ hT
      (decodeTarget_json_error codec elem ctx envelope e hne hct hfail)]
    exact ⟨rfl, rfl, rfl, rfl, rfl⟩
  · intro hct e hfail
    rw [ProcessMessage_of_decode_error codec gr ctx envelope w elem _ _ hT
      (decodeTarget_cbor_error codec elem ctx envelope e hne hct hfail)]
    exact ⟨rfl, rfl, rfl, rfl, rfl⟩
  · intro hj hc
    rw [ProcessMessage_of_decode_error codec gr ctx envelope w elem _ _ hT
      (decodeTarget_unsupported codec elem ctx envelope hne hj hc)]
    refine ⟨rfl, ?_, rfl, rfl, rfl, rfl⟩
    cases elem <;>
      first
      | exact absurd rfl hne
      | simp [decodeTarget, hj, hc, ContentTypeJSON, ContentTypeCBOR]

theorem ProcessMessage_decode_errors_witness :
    (ProcessMessage Sample.codec ⟨none, [Sample.passNil]⟩ Sample.ctx
        Sample.badJsonEnvelope ()).err =
      some { Err := ⟨"Unable to unmarshal message payload as JSON : bad json"⟩
             ErrorCode := 400 } ∧
    (ProcessMessage Sample.codec ⟨some ⟨.ptr (.named "Reading"), false⟩, [Sample.passNil]⟩
        Sample.ctx Sample.badCborEnvelope ()).err =
      some { Err := ⟨"Unable to unmarshal message payload as CBOR : bad cbor"⟩
             ErrorCode := 400 } ∧
    (ProcessMessage Sample.codec ⟨none, [Sample.passNil]⟩ Sample.ctx
        Sample.xmlEnvelope ()).err =
      some { Err := ⟨"\x27text/xml\x27 content type for input data not supported"⟩
             ErrorCode := 400 } ∧
    (ProcessMessage Sample.codec ⟨none, [Sample.passNil]⟩ Sample.ctx
        Sample.xmlEnvelope ()).calls = [] :=
  ⟨((ProcessMessage_decode_errors Sample.codec ⟨none, [Sample.passNil]⟩ Sample.ctx
      Sample.badJsonEnvelope () .event rfl (by decide)).1 rfl "bad json" rfl).1,
   ((ProcessMessage_decode_errors Sample.codec ⟨some ⟨.ptr (.named "Reading"), false⟩,
      [Sample.passNil]⟩ Sample.ctx Sample.badCborEnvelope () (.named "Reading") rfl
      (by decide)).2.1 rfl "bad cbor" rfl).1,
   ((ProcessMessage_decode_errors Sample.codec ⟨none, [Sample.passNil]⟩ Sample.ctx
      Sample.xmlEnvelope () .event rfl (by decide)).2.2.1 (by decide) (by decide)).1,
   ((ProcessMessage_decode_errors Sample.codec ⟨none, [Sample.passNil]⟩ Sample.ctx
      Sample.xmlEnvelope () .event rfl (by decide)).2.2.1 (by decide) (by decide)).2.2.1⟩

/-- C6, as the claim has it, fails: `(*models.Event)(nil)` is a pointer target type other
than raw bytes, and on an envelope of content type text/xml `ProcessMessage` panics in
line 64, before the content type is looked at: it returns no error of code 400, and none
at all. -/
theorem ProcessMessage_nil_pointer_target_panics :
    Sample.nilEventPointer.type = .ptr .event ∧
    (ProcessMessage Sample.codec ⟨some Sample.nilEventPointer, [Sample.passNil]⟩ Sample.ctx
        Sample.xmlEnvelope ()).panicked = true ∧
    (ProcessMessage Sample.codec ⟨some Sample.nilEventPointer, [Sample.passNil]⟩ Sample.ctx
        Sample.xmlEnvelope ()).err = none ∧
    ¬ (∃ me, (ProcessMessage Sample.codec ⟨some Sample.nilEventPointer, [Sample.passNil]⟩
        Sample.ctx Sample.xmlEnvelope ()).err = some me ∧ me.ErrorCode = 400) := by
  refine ⟨rfl, rfl, rfl, ?_⟩
  rintro ⟨me, hme, _⟩
  exact Option.noConfusion hme

theorem decodeTarget_stamps (codec : Codec) (elem : GoType) (ctx : Context)
    (envelope : MessageEnvelope) (dec : Decoded)
    (hdec : (decodeTarget codec elem ctx envelope).outcome = .ok dec) :
    dec.ctx.CorrelationID = envelope.CorrelationID ∧
    (elem = .event → envelope.ContentType = "application/json" →
      ∃ e, codec.jsonUnmarshalEvent envelope.Payload = .ok e ∧ dec.target = .event e ∧
        dec.ctx.EventID = e.ID) ∧
    (¬ (elem = .event ∧ envelope.ContentType = "application/json") →
      dec.ctx.EventID = ctx.EventID) ∧
    (elem ≠ .byteSlice → envelope.ContentType = "application/cbor" →
      dec.ctx.EventChecksum = envelope.Checksum) ∧
    (¬ (elem ≠ .byteSlice ∧ envelope.ContentType = "application/cbor") →
      dec.ctx.EventChecksum = ctx.EventChecksum) ∧
    dec.ctx.RetryData = ctx.RetryData := by
  have hjc : ¬ ("application/cbor" = "application/json") := by decide
  cases elem with
  | byteSlice =>
    simp only [decodeTarget, Except.ok.injEq] at hdec
    subst hdec
    simp
  | event =>
    simp only [decodeTarget, ContentTypeJSON, ContentTypeCBOR, unmarshalJSON, decodeCBOR]
      at hdec
    by_cases hj : envelope.ContentType = "application/json"
    · rw [if_pos hj] at hdec
      cases hev : codec.jsonUnmarshalEvent envelope.Payload with
      | error e => simp [hev, Except.map] at hdec
      | ok ev =>
        simp only [hev, Except.map, Except.ok.injEq] at hdec
        subst hdec
        simp [stampEventID, hj, hjc]
    · rw [if_neg hj] at hdec
      by_cases hc : envelope.ContentType = "application/cbor"
      · rw [if_pos hc] at hdec
        cases hev : codec.cborDecodeEvent envelope.Payload with
        | error e => simp [hev, Except.map] at hdec
        | ok ev =>
          cases ev with
          | none => simp [hev, Except.map] at hdec
          | some ev =>
            simp only [hev, Except.map, Option.map_some', Except.ok.injEq] at hdec
            subst hdec
            simp [hj, hc]
      · rw [if_neg hc] at hdec
        simp at hdec
  | named n =>
    simp only [decodeTarget, ContentTypeJSON, ContentTypeCBOR, unmarshalJSON, decodeCBOR]
      at hdec
    by_cases hj : envelope.ContentType = "application/json"
    · rw [if_pos hj] at hdec
      cases hev : codec.jsonUnmarshal (.named n) envelope.Payload with
      | error e => simp [hev] at hdec
      | ok v =>
        simp only [hev, Except.ok.injEq] at hdec
        subst hdec
        simp [stampEventID, hj, hjc]
    · rw [if_neg hj] at hdec
      by_cases hc : envelope.ContentType = "application/cbor"
      · rw [if_pos hc] at hdec
        cases hev : codec.cborDecode (.named n) envelope.Payload with
        | error e => simp [hev] at hdec
        | ok v =>
          cases v with
          | none => simp [hev] at hdec
          | some v =>
            simp only [hev, Except.ok.injEq] at hdec
            subst hdec
            simp [hj, hc]
      · rw [if_neg hc] at hdec
        simp at hdec
  | ptr t =>
    simp only [decodeTarget, ContentTypeJSON, ContentTypeCBOR, unmarshalJSON, decodeCBOR]
      at hdec
    by_cases hj : envelope.ContentType = "application/json"
    · rw [if_pos hj] at hdec
      cases hev : codec.jsonUnmarshal (.ptr t) envelope.Payload with
      | error e => simp [hev] at hdec
      | ok v =>
        simp only [hev, Except.ok.injEq] at hdec
        subst hdec
        simp [stampEventID, hj, hjc]
    · rw [if_neg hj] at hdec
      by_cases hc : envelope.ContentType = "application/cbor"
      · rw [if_pos hc] at hdec
        cases hev : codec.cborDecode (.ptr t) envelope.Payload with
        | error e => simp [hev] at hdec
        | ok v =>
          cases v with
          | none => simp [hev] at hdec
          | some v =>
            simp only [hev, Except.ok.injEq] at hdec
            subst hdec
            simp [hj, hc]
      · rw [if_neg hc] at hdec
        simp at hdec

theorem ProcessMessage_first_call {σ : Type} (codec : Codec) (gr : GolangRuntime σ)
    (ctx : Context) (envelope : MessageEnvelope) (w : σ) (elem : GoType) (dec : Decoded)
    (hT : defaultTargetType gr.TargetType = ⟨.ptr elem, false⟩)
    (hdec : (decodeTarget codec elem ctx envelope).outcome = .ok dec)
    (f : AppFunction σ) (rest : List (AppFunction σ)) (hfs : gr.transforms = f :: rest) :
    ∃ c cs, (ProcessMessage codec gr ctx envelope w).calls = c :: cs ∧ c.index = 0 ∧
      c.fn = f ∧ c.ctx = dec.ctx ∧
      c.args = [some dec.target, some (.str dec.contentType)] := by
  rw [ProcessMessage_of_decoded codec gr ctx envelope w elem dec hT hdec, hfs]
  obtain ⟨cs, hcs⟩ := runTransforms_head envelope dec.target dec.contentType f rest 0 none
    dec.ctx w
  exact ⟨_, cs, hcs, rfl, rfl, rfl, rfl⟩

/-- C8: after a successful decode the context handed to the first pipeline function (and
the final context of a run over the empty chain) is the stamped one: its CorrelationID is
the envelope's; its EventID is the decoded event's ID when the target type is the Event
type and the content type is application/json, and otherwise the EventID from before the
call; its EventChecksum is the envelope's checksum when the content type is
application/cbor and the target is not raw bytes, and otherwise the EventChecksum from
before the call; the retry-data slot is not touched. -/
theorem ProcessMessage_stamps_context {σ : Type} (codec : Codec) (gr : GolangRuntime σ)
    (ctx : Context) (envelope : MessageEnvelope) (w : σ) (elem : GoType) (dec : Decoded)
    (hT : defaultTargetType gr.TargetType = ⟨.ptr elem, false⟩)
    (hdec : (decodeTarget codec elem ctx envelope).outcome = .ok dec) :
    (dec.ctx.CorrelationID = envelope.CorrelationID ∧
     (elem = .event → envelope.ContentType = "application/json" →
       ∃ e, codec.jsonUnmarshalEvent envelope.Payload = .ok e ∧ dec.target = .event e ∧
         dec.ctx.EventID = e.ID) ∧
     (¬ (elem = .event ∧ envelope.ContentType = "application/json") →
       dec.ctx.EventID = ctx.EventID) ∧
     (elem ≠ .byteSlice → envelope.ContentType = "application/cbor" →
       dec.ctx.EventChecksum = envelope.Checksum) ∧
     (¬ (elem ≠ .byteSlice ∧ envelope.ContentType = "application/cbor") →
       dec.ctx.EventChecksum = ctx.EventChecksum) ∧
     dec.ctx.RetryData = ctx.RetryData) ∧
    (∀ c cs, (ProcessMessage codec gr ctx envelope w).calls = c :: cs →
      c.index = 0 ∧ c.ctx = dec.ctx) ∧
    (gr.transforms = [] → (ProcessMessage codec gr ctx envelope w).ctx = dec.ctx) := by
  refine ⟨decodeTarget_stamps codec elem ctx envelope dec hdec, ?_, ?_⟩
  · intro c cs hc
    cases hfs : gr.transforms with
    | nil =>
      rw [ProcessMessage_of_decoded codec gr ctx envelope w elem dec hT hdec, hfs] at hc
      simp [runTransforms] at hc
    | cons f rest =>
      obtain ⟨c0, cs0, h0, hi, _, hx, _⟩ :=
        ProcessMessage_first_call codec gr ctx envelope w elem dec hT hdec f rest hfs
      rw [h0] at hc
      simp only [List.cons.injEq] at hc
      rw [← hc.1]
      exact ⟨hi, hx⟩
  · intro hfs
    rw [ProcessMessage_of_decoded codec gr ctx envelope w elem dec hT hdec, hfs]
    rfl

theorem ProcessMessage_stamps_context_witness :
    (Sample.decodedEvent.ctx.CorrelationID = Sample.jsonEnvelope.CorrelationID ∧
     (GoType.event = .event → Sample.jsonEnvelope.ContentType = "application/json" →
       ∃ e, Sample.codec.jsonUnmarshalEvent Sample.jsonEnvelope.Payload = .ok e ∧
         Sample.decodedEvent.target = .event e ∧ Sample.decodedEvent.ctx.EventID = e.ID) ∧
     (¬ (GoType.event = .event ∧ Sample.jsonEnvelope.ContentType = "application/json") →
       Sample.decodedEvent.ctx.EventID = Sample.ctx.EventID) ∧
     (GoType.event ≠ .byteSlice → Sample.jsonEnvelope.ContentType = "application/cbor" →
       Sample.decodedEvent.ctx.EventChecksum = Sample.jsonEnvelope.Checksum) ∧
     (¬ (GoType.event ≠ .byteSlice ∧ Sample.jsonEnvelope.ContentType = "application/cbor") →
       Sample.decodedEvent.ctx.EventChecksum = Sample.ctx.EventChecksum) ∧
     Sample.decodedEvent.ctx.RetryData = Sample.ctx.RetryData) ∧
    (∀ c cs, (ProcessMessage Sample.codec ⟨none, [Sample.passNil]⟩ Sample.ctx
        Sample.jsonEnvelope ()).calls = c :: cs →
      c.index = 0 ∧ c.ctx = Sample.decodedEvent.ctx) ∧
    ((⟨none, [Sample.passNil]⟩ : GolangRuntime Unit).transforms = [] →
      (ProcessMessage Sample.codec ⟨none, [Sample.passNil]⟩ Sample.ctx
        Sample.jsonEnvelope ()).ctx = Sample.decodedEvent.ctx) :=
  ProcessMessage_stamps_context Sample.codec ⟨none, [Sample.passNil]⟩ Sample.ctx
    Sample.jsonEnvelope () .event Sample.decodedEvent rfl rfl

theorem decodeTarget_contentType (codec : Codec) (elem : GoType) (ctx : Context)
    (envelope : MessageEnvelope) (dec : Decoded) (hne : elem ≠ .byteSlice)
    (hdec : (decodeTarget codec elem ctx envelope).outcome = .ok dec) :
    dec.contentType = "" := by
  cases elem <;>
    first
    | exact absurd rfl hne
    | (simp only [decodeTarget] at hdec
       split at hdec
       · split at hdec
         · simp at hdec
         · simp only [Except.ok.injEq] at hdec; rw [← hdec]
       · split at hdec
         · split at hdec
           · simp at hdec
           · simp at hdec
           · simp only [Except.ok.injEq] at hdec; rw [← hdec]
         · simp at hdec)

/-- C7, as the code has it: when `TargetType` is a pointer to a byte slice and not a nil
pointer, whatever the content type of the envelope, the call does not panic, no decoder
is called, any error returned comes from a pipeline function (code 422, never a decode
or configuration error), and the first pipeline function of a non-empty chain is called
with the payload bytes of the envelope as target and the content type of the envelope as
tag. For every other pointer target type that is not a nil pointer, whenever the decode
yields a target, the tag is the empty string, and the first pipeline function is called
with the decoded target and the empty string. -/
theorem ProcessMessage_raw_bytes_passthrough {σ : Type} (codec : Codec) (gr : GolangRuntime σ)
    (ctx : Context) (envelope : MessageEnvelope) (w : σ) (elem : GoType)
    (hT : defaultTargetType gr.TargetType = ⟨.ptr elem, false⟩) :
    (elem = .byteSlice →
      (ProcessMessage codec gr ctx envelope w).panicked = false ∧
      (ProcessMessage codec gr ctx envelope w).decodes = [] ∧
      (∀ me, (ProcessMessage codec gr ctx envelope w).err = some me → me.ErrorCode = 422) ∧
      (∀ f rest, gr.transforms = f :: rest →
        ∃ c cs, (ProcessMessage codec gr ctx envelope w).calls = c :: cs ∧ c.index = 0 ∧
          c.fn = f ∧
          c.args = [some (.bytes envelope.Payload), some (.str envelope.ContentType)])) ∧
    (elem ≠ .byteSlice →
      ∀ dec, (decodeTarget codec elem ctx envelope).outcome = .ok dec →
        dec.contentType = "" ∧
        (∀ f rest, gr.transforms = f :: rest →
          ∃ c cs, (ProcessMessage codec gr ctx envelope w).calls = c :: cs ∧ c.index = 0 ∧
            c.fn = f ∧ c.args = [some dec.target, some (.str "")])) := by
  constructor
  · intro he
    subst he
    have hdec : (decodeTarget codec .byteSlice ctx envelope).outcome =
        .ok { target := .bytes envelope.Payload, contentType := envelope.ContentType
              ctx := { ctx with CorrelationID := envelope.CorrelationID } } := rfl
    refine ⟨?_, ?_, ?_, ?_⟩
    · rw [ProcessMessage_of_decoded codec gr ctx envelope w _ _ hT hdec]
    · rw [ProcessMessage_of_decoded codec gr ctx envelope w _ _ hT hdec]
      rfl
    · intro me hme
      rw [ProcessMessage_of_decoded codec gr ctx envelope w _ _ hT hdec] at hme
      exact runTransforms_err_code _ _ _ _ _ _ _ _ me hme
    · intro f rest hfs
      obtain ⟨c, cs, h, hi, hf, _, ha⟩ :=
        ProcessMessage_first_call codec gr ctx envelope w _ _ hT hdec f rest hfs
      exact ⟨c, cs, h, hi, hf, ha⟩
  · intro hne dec hdec
    have hct := decodeTarget_contentType codec elem ctx envelope dec hne hdec
    refine ⟨hct, ?_⟩
    intro f rest hfs
    obtain ⟨c, cs, h, hi, hf, _, ha⟩ :=
      ProcessMessage_first_call codec gr ctx envelope w _ _ hT hdec f rest hfs
    rw [hct] at ha
    exact ⟨c, cs, h, hi, hf, ha⟩

theorem ProcessMessage_raw_bytes_passthrough_witness :
    (ProcessMessage Sample.codec ⟨some ⟨.ptr .byteSlice, false⟩, [Sample.passNil]⟩ Sample.ctx
        Sample.xmlEnvelope ()).decodes = [] ∧
    (∃ c cs, (ProcessMessage Sample.codec ⟨some ⟨.ptr .byteSlice, false⟩, [Sample.passNil]⟩
        Sample.ctx Sample.xmlEnvelope ()).calls = c :: cs ∧ c.index = 0 ∧
      c.fn = Sample.passNil ∧ c.args = [some (.bytes [7]), some (.str "text/xml")]) ∧
    (∃ c cs, (ProcessMessage Sample.codec ⟨none, [Sample.passNil]⟩
        Sample.ctx Sample.jsonEnvelope ()).calls = c :: cs ∧ c.index = 0 ∧
      c.fn = Sample.passNil ∧ c.args = [some (.event ⟨"ev1", ""⟩), some (.str "")]) :=
  ⟨((ProcessMessage_raw_bytes_passthrough Sample.codec ⟨some ⟨.ptr .byteSlice, false⟩,
      [Sample.passNil]⟩ Sample.ctx Sample.xmlEnvelope () .byteSlice rfl).1 rfl).2.1,
   ((ProcessMessage_raw_bytes_passthrough Sample.codec ⟨some ⟨.ptr .byteSlice, false⟩,
      [Sample.passNil]⟩ Sample.ctx Sample.xmlEnvelope () .byteSlice rfl).1 rfl).2.2.2
      Sample.passNil [] rfl,
   ((ProcessMessage_raw_bytes_passthrough Sample.codec ⟨none, [Sample.passNil]⟩
      Sample.ctx Sample.jsonEnvelope () .event rfl).2 (by decide) Sample.decodedEvent rfl).2
      Sample.passNil [] rfl⟩

/-- C7, as the claim has it, fails: with `TargetType` a nil pointer of type `*[]byte`,
which is a pointer to a byte slice, `ProcessMessage` panics in line 64, before the type
switch of line 69: the first pipeline function is not called at all, with the payload
bytes or otherwise. -/
theorem ProcessMessage_nil_bytes_pointer_panics :
    Sample.nilBytesPointer.type = .ptr .byteSlice ∧
    (ProcessMessage Sample.codec ⟨some Sample.nilBytesPointer, [Sample.passNil]⟩ Sample.ctx
        Sample.xmlEnvelope ()).panicked = true ∧
    (ProcessMessage Sample.codec ⟨some Sample.nilBytesPointer, [Sample.passNil]⟩ Sample.ctx
        Sample.xmlEnvelope ()).calls = [] ∧
    ¬ (∃ c cs, (ProcessMessage Sample.codec ⟨some Sample.nilBytesPointer, [Sample.passNil]⟩
        Sample.ctx Sample.xmlEnvelope ()).calls = c :: cs ∧
      c.args = [some (.bytes Sample.xmlEnvelope.Payload),
        some (.str Sample.xmlEnvelope.ContentType)]) := by
  refine ⟨rfl, rfl, rfl, ?_⟩
  rintro ⟨c, cs, h, _⟩
  exact List.noConfusion h

/-! ### The function loop -/

theorem runTransforms_continue {σ : Type} (envelope : MessageEnvelope) (target : Value)
    (contentType : String) (f : AppFunction σ) (rest : List (AppFunction σ)) (index : Nat)
    (st : LoopState σ) (hc : (invoke target contentType f st).cont = true) :
    runTransforms envelope target contentType (f :: rest) index st.result st.ctx st.world =
      { runTransforms envelope target contentType rest (index + 1)
          (invoke target contentType f st).result (invoke target contentType f st).ctx
          (invoke target contentType f st).world with
        calls :=
          { index := index, fn := f, ctx := st.ctx
            args := callArgs target contentType st.result, cont := true
            result := (invoke target contentType f st).result } ::
          (runTransforms envelope target contentType rest (index + 1)
            (invoke target contentType f st).result (invoke target contentType f st).ctx
            (invoke target contentType f st).world).calls } := by
  simp only [invoke] at hc
  simp [runTransforms, invoke, hc]

theorem runTransforms_append {σ : Type} (envelope : MessageEnvelope) (target : Value)
    (contentType : String) (rest : List (AppFunction σ)) (pre : List (AppFunction σ)) :
    ∀ (index : Nat) (st st1 : LoopState σ),
      continueThrough target contentType pre st = some st1 →
      (runTransforms envelope target contentType (pre ++ rest) index st.result st.ctx
          st.world).err =
        (runTransforms envelope target contentType rest (index + pre.length) st1.result
          st1.ctx st1.world).err ∧
      (runTransforms envelope target contentType (pre ++ rest) index st.result st.ctx
          st.world).ctx =
        (runTransforms envelope target contentType rest (index + pre.length) st1.result
          st1.ctx st1.world).ctx ∧
      (runTransforms envelope target contentType (pre ++ rest) index st.result st.ctx
          st.world).world =
        (runTransforms envelope target contentType rest (index + pre.length) st1.result
          st1.ctx st1.world).world ∧
      (runTransforms envelope target contentType (pre ++ rest) index st.result st.ctx
          st.world).logged =
        (runTransforms envelope target contentType rest (index + pre.length) st1.result
          st1.ctx st1.world).logged ∧
      ∃ cs, (runTransforms envelope target contentType (pre ++ rest) index st.result st.ctx
          st.world).calls =
        cs ++ (runTransforms envelope target contentType rest (index + pre.length) st1.result
          st1.ctx st1.world).calls ∧
        cs.map (fun c => c.index) = List.range' index pre.length ∧
        cs.map (fun c => c.fn) = pre ∧ ∀ c ∈ cs, c.cont = true := by
  induction pre with
  | nil =>
    intro index st st1 h
    simp only [continueThrough, Option.some.injEq] at h
    subst h
    exact ⟨rfl, rfl, rfl, rfl, [], rfl, rfl, rfl, by simp⟩
  | cons f pre ih =>
    intro index st st1 h
    simp only [continueThrough] at h
    split at h
    · rename_i hc
      obtain ⟨h1, h2, h3, h4, cs, h5, h6, h7, h8⟩ := ih (index + 1) _ st1 h
      simp only [LoopState.after] at h1 h2 h3 h4 h5
      have hlen : index + (f :: pre).length = index + 1 + pre.length := by
        simp only [List.length_cons]; omega
      rw [hlen, List.cons_append,
        runTransforms_continue envelope target contentType f (pre ++ rest) index st hc]
      refine ⟨h1, h2, h3, h4,
        { index := index, fn := f, ctx := st.ctx
          args := callArgs target contentType st.result, cont := true
          result := (invoke target contentType f st).result } :: cs, ?_, ?_, ?_, ?_⟩
      · simp only [h5, List.cons_append]
      · simp only [List.map_cons, h6, List.length_cons, List.range'_succ]
      · simp only [List.map_cons, h7]
      · intro c hcm
        rcases List.mem_cons.1 hcm with rfl | hcm
        · rfl
        · exact h8 c hcm
    · simp at h

theorem runTransforms_stop {σ : Type} (envelope : MessageEnvelope) (target : Value)
    (contentType : String) (f : AppFunction σ) (post : List (AppFunction σ)) (index : Nat)
    (st : LoopState σ) (hc : (invoke target contentType f st).cont = false) :
    (runTransforms envelope target contentType (f :: post) index st.result st.ctx
        st.world).err =
      ((invoke target contentType f st).result.bind Value.asError).map
        (fun e => { Err := e, ErrorCode := 422 }) ∧
    (runTransforms envelope target contentType (f :: post) index st.result st.ctx
        st.world).ctx = (invoke target contentType f st).ctx ∧
    (runTransforms envelope target contentType (f :: post) index st.result st.ctx
        st.world).world = (invoke target contentType f st).world ∧
    (runTransforms envelope target contentType (f :: post) index st.result st.ctx
        st.world).logged =
      (((invoke target contentType f st).result.bind Value.asError).map
        (fun e => pipelineErrorEntry index e envelope)).toList ∧
    (runTransforms envelope target contentType (f :: post) index st.result st.ctx
        st.world).calls.map (fun c => c.index) = [index] ∧
    (runTransforms envelope target contentType (f :: post) index st.result st.ctx
        st.world).calls.map (fun c => c.fn) = [f] := by
  simp only [invoke] at hc
  simp only [runTransforms, invoke, hc]
  cases h : (f st.ctx (callArgs target contentType st.result) st.world).result.bind
    Value.asError <;> simp [StatusUnprocessableEntity]

theorem ProcessMessage_fields {σ : Type} (codec : Codec) (gr : GolangRuntime σ)
    (ctx : Context) (envelope : MessageEnvelope) (w : σ) (elem : GoType) (dec : Decoded)
    (hT : defaultTargetType gr.TargetType = ⟨.ptr elem, false⟩)
    (hdec : (decodeTarget codec elem ctx envelope).outcome = .ok dec) :
    (ProcessMessage codec gr ctx envelope w).err =
      (runTransforms envelope dec.target dec.contentType gr.transforms 0 none dec.ctx w).err ∧
    (ProcessMessage codec gr ctx envelope w).ctx =
      (runTransforms envelope dec.target dec.contentType gr.transforms 0 none dec.ctx w).ctx ∧
    (ProcessMessage codec gr ctx envelope w).world =
      (runTransforms envelope dec.target dec.contentType gr.transforms 0 none dec.ctx
        w).world ∧
    (ProcessMessage codec gr ctx envelope w).logged =
      processingEntry gr.transforms.length ::
        (runTransforms envelope dec.target dec.contentType gr.transforms 0 none dec.ctx
          w).logged ∧
    (ProcessMessage codec gr ctx envelope w).calls =
      (runTransforms envelope dec.target dec.contentType gr.transforms 0 none dec.ctx
        w).calls := by
  rw [ProcessMessage_of_decoded codec gr ctx envelope w elem dec hT hdec]
  exact ⟨rfl, rfl, rfl, rfl, rfl⟩

theorem ProcessMessage_returns {σ : Type} (codec : Codec) (gr : GolangRuntime σ)
    (ctx : Context) (envelope : MessageEnvelope) (w : σ) (elem : GoType) (dec : Decoded)
    (hT : defaultTargetType gr.TargetType = ⟨.ptr elem, false⟩)
    (hdec : (decodeTarget codec elem ctx envelope).outcome = .ok dec) :
    (ProcessMessage codec gr ctx envelope w).panicked = false ∧
    (ProcessMessage codec gr ctx envelope w).targetType =
      some (defaultTargetType gr.TargetType) := by
  rw [ProcessMessage_of_decoded codec gr ctx envelope w elem dec hT hdec, hT]
  exact ⟨rfl, rfl⟩

/-- What a run does when the functions of `pre` all continue and the next one, `f`,
stops: everything is decided by the call of `f`. -/
theorem ProcessMessage_stop_at {σ : Type} (codec : Codec) (gr : GolangRuntime σ)
    (ctx : Context) (envelope : MessageEnvelope) (w : σ) (elem : GoType) (dec : Decoded)
    (pre post : List (AppFunction σ)) (f : AppFunction σ) (st : LoopState σ)
    (hT : defaultTargetType gr.TargetType = ⟨.ptr elem, false⟩)
    (hdec : (decodeTarget codec elem ctx envelope).outcome = .ok dec)
    (hchain : gr.transforms = pre ++ f :: post)
    (hpre : continueThrough dec.target dec.contentType pre (LoopState.initial dec w) = some st)
    (hcont : (invoke dec.target dec.contentType f st).cont = false) :
    (ProcessMessage codec gr ctx envelope w).err =
      ((invoke dec.target dec.contentType f st).result.bind Value.asError).map
        (fun e => { Err := e, ErrorCode := 422 }) ∧
    (ProcessMessage codec gr ctx envelope w).ctx = (invoke dec.target dec.contentType f st).ctx ∧
    (ProcessMessage codec gr ctx envelope w).world =
      (invoke dec.target dec.contentType f st).world ∧
    (ProcessMessage codec gr ctx envelope w).logged =
      processingEntry gr.transforms.length ::
        (((invoke dec.target dec.contentType f st).result.bind Value.asError).map
          (fun e => pipelineErrorEntry pre.length e envelope)).toList ∧
    (ProcessMessage codec gr ctx envelope w).calls.map (fun c => c.index) =
      List.range (pre.length + 1) ∧
    (ProcessMessage codec gr ctx envelope w).calls.map (fun c => c.fn) = pre ++ [f] := by
  obtain ⟨e1, e2, e3, e4, e5⟩ := ProcessMessage_fields codec gr ctx envelope w elem dec hT hdec
  obtain ⟨a1, a2, a3, a4, cs, a5, a6, a7, _⟩ :=
    runTransforms_append envelope dec.target dec.contentType (f :: post) pre 0
      (LoopState.initial dec w) st hpre
  obtain ⟨b1, b2, b3, b4, b5, b6⟩ :=
    runTransforms_stop envelope dec.target dec.contentType f post (0 + pre.length) st hcont
  simp only [LoopState.initial] at a1 a2 a3 a4 a5
  rw [hchain] at e1 e2 e3 e4 e5
  simp only [Nat.zero_add] at a1 a2 a3 a4 a5 b1 b2 b3 b4 b5 b6
  refine ⟨?_, ?_, ?_, ?_, ?_, ?_⟩
  · rw [e1, a1, b1]
  · rw [e2, a2, b2]
  · rw [e3, a3, b3]
  · rw [e4, a4, b4, hchain]
  · rw [e5, a5, List.map_append, a6, b5, List.range_eq_range', List.range'_1_concat,
      Nat.zero_add]
  · rw [e5, a5, List.map_append, a7, b6]

/-- C1, as the code has it: after a successful decode, when the functions before position
`k = pre.length` of the chain each return continue=true and the function `f` at position
`k` returns continue=false with the error `e` as result, `ProcessMessage` returns (it
does not panic) the `MessageError` with cause `e` and code 422, which has no field for
the stage; the stage index `k` is reported in the log line "Pipeline function #k resulted
in error", written with the text of `e` and the correlation id; and the run has invoked
exactly the functions at positions 0..k, in order: no function after `k` is invoked. -/
theorem ProcessMessage_stage_error {σ : Type} (codec : Codec) (gr : GolangRuntime σ)
    (ctx : Context) (envelope : MessageEnvelope) (w : σ) (elem : GoType) (dec : Decoded)
    (pre post : List (AppFunction σ)) (f : AppFunction σ) (st : LoopState σ) (e : GoError)
    (hT : defaultTargetType gr.TargetType = ⟨.ptr elem, false⟩)
    (hdec : (decodeTarget codec elem ctx envelope).outcome = .ok dec)
    (hchain : gr.transforms = pre ++ f :: post)
    (hpre : continueThrough dec.target dec.contentType pre (LoopState.initial dec w) = some st)
    (hcont : (invoke dec.target dec.contentType f st).cont = false)
    (hres : (invoke dec.target dec.contentType f st).result = some (.error e)) :
    (ProcessMessage codec gr ctx envelope w).err = some { Err := e, ErrorCode := 422 } ∧
    (ProcessMessage codec gr ctx envelope w).logged =
      [processingEntry gr.transforms.length,
       { level := .error
         message := "Pipeline function #" ++ toString pre.length ++ " resulted in error"
         args := ["error", e.Error, "correlation-id", envelope.CorrelationID] }] ∧
    (ProcessMessage codec gr ctx envelope w).calls.map (fun c => c.index) =
      List.range (pre.length + 1) ∧
    (ProcessMessage codec gr ctx envelope w).calls.map (fun c => c.fn) = pre ++ [f] ∧
    (ProcessMessage codec gr ctx envelope w).ctx = (invoke dec.target dec.contentType f st).ctx ∧
    (ProcessMessage codec gr ctx envelope w).world =
      (invoke dec.target dec.contentType f st).world ∧
    (ProcessMessage codec gr ctx envelope w).panicked = false := by
  obtain ⟨h1, h2, h3, h4, h5, h6⟩ :=
    ProcessMessage_stop_at codec gr ctx envelope w elem dec pre post f st hT hdec hchain hpre
      hcont
  rw [hres] at h1 h4
  exact ⟨h1, h4, h5, h6, h2, h3,
    (ProcessMessage_returns codec gr ctx envelope w elem dec hT hdec).1⟩

theorem ProcessMessage_stage_error_witness :
    (ProcessMessage Sample.codec ⟨none, [Sample.passNil, Sample.passText, Sample.failing,
        Sample.passNil]⟩ Sample.ctx Sample.jsonEnvelope ()).err =
      some { Err := ⟨"boom"⟩, ErrorCode := 422 } ∧
    (ProcessMessage Sample.codec ⟨none, [Sample.passNil, Sample.passText, Sample.failing,
        Sample.passNil]⟩ Sample.ctx Sample.jsonEnvelope ()).logged =
      [{ level := .debug, message := "Processing message: 4 Transforms", args := [] },
       { level := .error, message := "Pipeline function #2 resulted in error"
         args := ["error", "boom", "correlation-id", "corr"] }] ∧
    (ProcessMessage Sample.codec ⟨none, [Sample.passNil, Sample.passText, Sample.failing,
        Sample.passNil]⟩ Sample.ctx Sample.jsonEnvelope ()).calls.map (fun c => c.index) =
      [0, 1, 2] :=
  have h := ProcessMessage_stage_error Sample.codec
    ⟨none, [Sample.passNil, Sample.passText, Sample.failing, Sample.passNil]⟩ Sample.ctx
    Sample.jsonEnvelope () .event Sample.decodedEvent [Sample.passNil, Sample.passText]
    [Sample.passNil] Sample.failing
    { result := some (.str "next"), ctx := Sample.decodedEvent.ctx, world := () } ⟨"boom"⟩
    rfl rfl rfl rfl rfl rfl
  ⟨h.1, h.2.1, h.2.2.1⟩

/-- C1, as the claim has it, fails: the returned `MessageError` does not identify the
stage. A chain failing at stage 0 and a chain failing at stage 2 with the same error
return the same `MessageError`, so no reading of the returned error yields the stage;
the two runs differ in their log lines, which name stage 0 and stage 2. -/
theorem ProcessMessage_error_carries_no_stage :
    (ProcessMessage Sample.codec ⟨none, [Sample.failing]⟩ Sample.ctx
        Sample.jsonEnvelope ()).err = some { Err := ⟨"boom"⟩, ErrorCode := 422 } ∧
    (ProcessMessage Sample.codec ⟨none, [Sample.passNil, Sample.passText, Sample.failing]⟩
        Sample.ctx Sample.jsonEnvelope ()).err = some { Err := ⟨"boom"⟩, ErrorCode := 422 } ∧
    (ProcessMessage Sample.codec ⟨none, [Sample.failing]⟩ Sample.ctx
        Sample.jsonEnvelope ()).calls.map (fun c => c.index) = [0] ∧
    (ProcessMessage Sample.codec ⟨none, [Sample.passNil, Sample.passText, Sample.failing]⟩
        Sample.ctx Sample.jsonEnvelope ()).calls.map (fun c => c.index) = [0, 1, 2] ∧
    ¬ (∃ stage : Option MessageError → Nat,
        stage (ProcessMessage Sample.codec ⟨none, [Sample.failing]⟩ Sample.ctx
          Sample.jsonEnvelope ()).err = 0 ∧
        stage (ProcessMessage Sample.codec ⟨none, [Sample.passNil, Sample.passText,
          Sample.failing]⟩ Sample.ctx Sample.jsonEnvelope ()).err = 2) ∧
    (ProcessMessage Sample.codec ⟨none, [Sample.failing]⟩ Sample.ctx
        Sample.jsonEnvelope ()).logged.map (fun l => l.message) =
      ["Processing message: 1 Transforms", "Pipeline function #0 resulted in error"] ∧
    (ProcessMessage Sample.codec ⟨none, [Sample.passNil, Sample.passText, Sample.failing]⟩
        Sample.ctx Sample.jsonEnvelope ()).logged.map (fun l => l.message) =
      ["Processing message: 3 Transforms", "Pipeline function #2 resulted in error"] := by
  refine ⟨rfl, rfl, rfl, rfl, ?_, by decide, by decide⟩
  rintro ⟨stage, h0, h2⟩
  have hA : (ProcessMessage Sample.codec ⟨none, [Sample.failing]⟩ Sample.ctx
      Sample.jsonEnvelope ()).err = some { Err := ⟨"boom"⟩, ErrorCode := 422 } := rfl
  have hB : (ProcessMessage Sample.codec ⟨none, [Sample.passNil, Sample.passText,
      Sample.failing]⟩ Sample.ctx Sample.jsonEnvelope ()).err =
      some { Err := ⟨"boom"⟩, ErrorCode := 422 } := rfl
  rw [hA] at h0
  rw [hB, h0] at h2
  exact absurd h2 (by decide)

/-- C2: after a successful decode, when the functions before position `k = pre.length`
each return continue=true and the function `f` at position `k` returns continue=false
with a result that is not an error (nil, or any non-nil value that is not an error),
`ProcessMessage` returns nil (it does not panic), logs nothing but its opening line, has
invoked exactly the functions at positions 0..k, and leaves the context and state as `f`
left them. Nothing
in this outcome depends on whether the result was nil. -/
theorem ProcessMessage_stage_drop {σ : Type} (codec : Codec) (gr : GolangRuntime σ)
    (ctx : Context) (envelope : MessageEnvelope) (w : σ) (elem : GoType) (dec : Decoded)
    (pre post : List (AppFunction σ)) (f : AppFunction σ) (st : LoopState σ)
    (hT : defaultTargetType gr.TargetType = ⟨.ptr elem, false⟩)
    (hdec : (decodeTarget codec elem ctx envelope).outcome = .ok dec)
    (hchain : gr.transforms = pre ++ f :: post)
    (hpre : continueThrough dec.target dec.contentType pre (LoopState.initial dec w) = some st)
    (hcont : (invoke dec.target dec.contentType f st).cont = false)
    (hres : ∀ e, (invoke dec.target dec.contentType f st).result ≠ some (.error e)) :
    (ProcessMessage codec gr ctx envelope w).err = none ∧
    (ProcessMessage codec gr ctx envelope w).logged = [processingEntry gr.transforms.length] ∧
    (ProcessMessage codec gr ctx envelope w).calls.map (fun c => c.index) =
      List.range (pre.length + 1) ∧
    (ProcessMessage codec gr ctx envelope w).calls.map (fun c => c.fn) = pre ++ [f] ∧
    (ProcessMessage codec gr ctx envelope w).ctx = (invoke dec.target dec.contentType f st).ctx ∧
    (ProcessMessage codec gr ctx envelope w).world =
      (invoke dec.target dec.contentType f st).world ∧
    (ProcessMessage codec gr ctx envelope w).panicked = false := by
  obtain ⟨h1, h2, h3, h4, h5, h6⟩ :=
    ProcessMessage_stop_at codec gr ctx envelope w elem dec pre post f st hT hdec hchain hpre
      hcont
  have hnone : (invoke dec.target dec.contentType f st).result.bind Value.asError = none := by
    cases hr : (invoke dec.target dec.contentType f st).result with
    | none => rfl
    | some v =>
      cases v with
      | error e => exact absurd hr (hres e)
      | bytes b => rfl
      | str s => rfl
      | event ev => rfl
      | object t r => rfl
  rw [hnone] at h1 h4
  exact ⟨h1, h4, h5, h6, h2, h3,
    (ProcessMessage_returns codec gr ctx envelope w elem dec hT hdec).1⟩

theorem ProcessMessage_stage_drop_witness :
    (ProcessMessage Sample.codec ⟨none, [Sample.passText, Sample.dropping,
        Sample.failing]⟩ Sample.ctx Sample.jsonEnvelope ()).err = none ∧
    (ProcessMessage Sample.codec ⟨none, [Sample.passText, Sample.dropping,
        Sample.failing]⟩ Sample.ctx Sample.jsonEnvelope ()).calls.map (fun c => c.index) =
      [0, 1] :=
  have h := ProcessMessage_stage_drop Sample.codec
    ⟨none, [Sample.passText, Sample.dropping, Sample.failing]⟩ Sample.ctx
    Sample.jsonEnvelope () .event Sample.decodedEvent [Sample.passText]
    [Sample.failing] Sample.dropping
    { result := some (.str "next"), ctx := Sample.decodedEvent.ctx, world := () }
    rfl rfl rfl rfl rfl (fun _ h => Option.noConfusion h)
  ⟨h.1, h.2.2.1⟩

theorem prefix_cons_cons {α : Type} (a : α) (l₁ l₂ : List α) (h : l₁ <+: l₂) :
    a :: l₁ <+: a :: l₂ := by
  obtain ⟨t, ht⟩ := h
  exact ⟨t, by rw [List.cons_append, ht]⟩

theorem runTransforms_calls_in_order {σ : Type} (envelope : MessageEnvelope) (target : Value)
    (contentType : String) (fs : List (AppFunction σ)) :
    ∀ (index : Nat) (result : GoAny) (ctx : Context) (w : σ),
      (runTransforms envelope target contentType fs index result ctx w).calls.map
          (fun c => c.fn) <+: fs ∧
      (runTransforms envelope target contentType fs index result ctx w).calls.map
          (fun c => c.index) =
        List.range' index
          (runTransforms envelope target contentType fs index result ctx w).calls.length := by
  induction fs with
  | nil => intro index result ctx w; simp [runTransforms]
  | cons f rest ih =>
    intro index result ctx w
    cases hc : (invoke target contentType f ⟨result, ctx, w⟩).cont with
    | false =>
      obtain ⟨_, _, _, _, h5, h6⟩ :=
        runTransforms_stop envelope target contentType f rest index ⟨result, ctx, w⟩ hc
      simp only at h5 h6
      have hl : (runTransforms envelope target contentType (f :: rest) index result ctx
          w).calls.length = 1 := by
        have := congrArg List.length h5
        simpa using this
      rw [h6, h5, hl]
      exact ⟨prefix_cons_cons f [] rest List.nil_prefix, rfl⟩
    | true =>
      have h := runTransforms_continue envelope target contentType f rest index
        ⟨result, ctx, w⟩ hc
      simp only at h
      rw [h]
      obtain ⟨i1, i2⟩ := ih (index + 1)
        (invoke target contentType f ⟨result, ctx, w⟩).result
        (invoke target contentType f ⟨result, ctx, w⟩).ctx
        (invoke target contentType f ⟨result, ctx, w⟩).world
      constructor
      · simp only [List.map_cons]
        exact prefix_cons_cons f _ rest i1
      · simp only [List.map_cons, List.length_cons, List.range'_succ, i2]

theorem ProcessMessage_calls_in_order {σ : Type} (codec : Codec) (gr : GolangRuntime σ)
    (ctx : Context) (envelope : MessageEnvelope) (w : σ) :
    (ProcessMessage codec gr ctx envelope w).calls.map (fun c => c.fn) <+: gr.transforms ∧
    (ProcessMessage codec gr ctx envelope w).calls.map (fun c => c.index) =
      List.range (ProcessMessage codec gr ctx envelope w).calls.length := by
  have hnil : ∀ r : RunResult σ, r.calls = [] →
      r.calls.map (fun c => c.fn) <+: gr.transforms ∧
      r.calls.map (fun c => c.index) = List.range r.calls.length := by
    intro r hr
    rw [hr]
    exact ⟨List.nil_prefix, rfl⟩
  cases hT : defaultTargetType gr.TargetType with
  | mk ty isNil =>
    cases ty with
    | ptr elem =>
      cases isNil with
      | true => apply hnil; simp only [ProcessMessage, hT, if_true]
      | false =>
        cases hdec : (decodeTarget codec elem ctx envelope).outcome with
        | error p =>
          cases p with
          | returned err entry =>
            apply hnil
            rw [ProcessMessage_of_decode_error codec gr ctx envelope w elem err entry hT hdec]
          | panicked c =>
            apply hnil
            simp only [ProcessMessage, hT, hdec, Bool.false_eq_true, if_false]
        | ok dec =>
          obtain ⟨_, _, _, _, e5⟩ :=
            ProcessMessage_fields codec gr ctx envelope w elem dec hT hdec
          rw [e5, List.range_eq_range']
          exact runTransforms_calls_in_order envelope dec.target dec.contentType
            gr.transforms 0 none dec.ctx w
    | byteSlice => apply hnil; simp only [ProcessMessage, hT]
    | event => apply hnil; simp only [ProcessMessage, hT]
    | named n => apply hnil; simp only [ProcessMessage, hT]

/-- C4, as the code has it: in every run the invoked functions are, in order and each
once, an initial segment of the chain, numbered 0, 1, 2, ... . When `TargetType` is not a
nil pointer and the decode yields a target, then: when every function of the chain
returns continue=true the run returns nil without a panic, has invoked exactly the
functions of the chain in chain order, logs only its opening line and ends in the state
the last function left; for the empty chain it returns nil without a panic and invokes
nothing, the final context is the stamped context of the decode phase, the state is
untouched, and beyond the decode and the stamping the run writes its opening debug line
and leaves `TargetType` set to `&models.Event{}` when it was nil (unchanged otherwise). -/
theorem ProcessMessage_runs_chain_in_order {σ : Type} (codec : Codec) (gr : GolangRuntime σ)
    (ctx : Context) (envelope : MessageEnvelope) (w : σ) :
    ((ProcessMessage codec gr ctx envelope w).calls.map (fun c => c.fn) <+: gr.transforms ∧
     (ProcessMessage codec gr ctx envelope w).calls.map (fun c => c.index) =
       List.range (ProcessMessage codec gr ctx envelope w).calls.length) ∧
    (∀ elem dec, defaultTargetType gr.TargetType = ⟨.ptr elem, false⟩ →
      (decodeTarget codec elem ctx envelope).outcome = .ok dec →
      (∀ st, continueThrough dec.target dec.contentType gr.transforms
            (LoopState.initial dec w) = some st →
        (ProcessMessage codec gr ctx envelope w).err = none ∧
        (ProcessMessage codec gr ctx envelope w).calls.map (fun c => c.fn) = gr.transforms ∧
        (ProcessMessage codec gr ctx envelope w).calls.map (fun c => c.index) =
          List.range gr.transforms.length ∧
        (ProcessMessage codec gr ctx envelope w).logged =
          [processingEntry gr.transforms.length] ∧
        (ProcessMessage codec gr ctx envelope w).ctx = st.ctx ∧
        (ProcessMessage codec gr ctx envelope w).world = st.world ∧
        (ProcessMessage codec gr ctx envelope w).panicked = false ∧
        (ProcessMessage codec gr ctx envelope w).targetType =
          some (defaultTargetType gr.TargetType)) ∧
      (gr.transforms = [] →
        (ProcessMessage codec gr ctx envelope w).err = none ∧
        (ProcessMessage codec gr ctx envelope w).calls = [] ∧
        (ProcessMessage codec gr ctx envelope w).logged = [processingEntry 0] ∧
        (ProcessMessage codec gr ctx envelope w).ctx = dec.ctx ∧
        (ProcessMessage codec gr ctx envelope w).world = w ∧
        (ProcessMessage codec gr ctx envelope w).panicked = false ∧
        (ProcessMessage codec gr ctx envelope w).targetType =
          some (defaultTargetType gr.TargetType) ∧
        (ProcessMessage codec gr ctx envelope w).decodes =
          (decodeTarget codec elem ctx envelope).decodes)) := by
  refine ⟨ProcessMessage_calls_in_order codec gr ctx envelope w, ?_⟩
  intro elem dec hT hdec
  obtain ⟨e1, e2, e3, e4, e5⟩ := ProcessMessage_fields codec gr ctx envelope w elem dec hT hdec
  obtain ⟨r1, r2⟩ := ProcessMessage_returns codec gr ctx envelope w elem dec hT hdec
  constructor
  · intro st hst
    obtain ⟨a1, a2, a3, a4, cs, a5, a6, a7, _⟩ :=
      runTransforms_append envelope dec.target dec.contentType [] gr.transforms 0
        (LoopState.initial dec w) st hst
    simp only [LoopState.initial, List.append_nil, runTransforms] at a1 a2 a3 a4 a5
    refine ⟨?_, ?_, ?_, ?_, ?_, ?_, r1, r2⟩
    · rw [e1, a1]
    · rw [e5, a5, a7]
    · rw [e5, a5, a6, List.range_eq_range']
    · rw [e4, a4]
    · rw [e2, a2]
    · rw [e3, a3]
  · intro hfs
    rw [hfs] at e1 e2 e3 e4 e5
    refine ⟨e1, e5, e4, e2, e3, r1, r2, ?_⟩
    rw [ProcessMessage_of_decoded codec gr ctx envelope w elem dec hT hdec]

theorem ProcessMessage_runs_chain_in_order_witness :
    (ProcessMessage Sample.codec ⟨none, [Sample.passNil, Sample.passText]⟩ Sample.ctx
        Sample.jsonEnvelope ()).err = none ∧
    (ProcessMessage Sample.codec ⟨none, [Sample.passNil, Sample.passText]⟩ Sample.ctx
        Sample.jsonEnvelope ()).calls.map (fun c => c.fn) =
      [Sample.passNil, Sample.passText] ∧
    (ProcessMessage Sample.codec ⟨none, [Sample.passNil, Sample.passText]⟩ Sample.ctx
        Sample.jsonEnvelope ()).calls.map (fun c => c.index) = [0, 1] ∧
    (ProcessMessage Sample.codec (⟨none, []⟩ : GolangRuntime Unit) Sample.ctx
        Sample.jsonEnvelope ()).calls = [] :=
  have h := ((ProcessMessage_runs_chain_in_order Sample.codec
    ⟨none, [Sample.passNil, Sample.passText]⟩ Sample.ctx Sample.jsonEnvelope ()).2 .event
    Sample.decodedEvent rfl rfl).1
    { result := some (.str "next"), ctx := Sample.decodedEvent.ctx, world := () } rfl
  ⟨h.1, h.2.1, h.2.2.1,
   (((ProcessMessage_runs_chain_in_order Sample.codec (⟨none, []⟩ : GolangRuntime Unit)
      Sample.ctx Sample.jsonEnvelope ()).2 .event Sample.decodedEvent rfl rfl).2 rfl).2.1⟩

/-- C4, as the claim has it, fails on the empty chain in two ways. With a nil
`TargetType` and a JSON event, the run returns nil and invokes nothing, but beyond the
decode and the stamping it writes a debug line and leaves `TargetType` set to
`&models.Event{}`. With a CBOR envelope holding the CBOR null (0xf6), the decoder returns
without error, the checksum and the correlation id are stamped, and the run panics in
line 116 instead of returning success. -/
theorem ProcessMessage_empty_chain_side_effects :
    ((ProcessMessage Sample.codec (⟨none, []⟩ : GolangRuntime Unit) Sample.ctx
        Sample.jsonEnvelope ()).err = none ∧
     (ProcessMessage Sample.codec (⟨none, []⟩ : GolangRuntime Unit) Sample.ctx
        Sample.jsonEnvelope ()).calls = [] ∧
     (ProcessMessage Sample.codec (⟨none, []⟩ : GolangRuntime Unit) Sample.ctx
        Sample.jsonEnvelope ()).targetType = some ⟨.ptr .event, false⟩ ∧
     (ProcessMessage Sample.codec (⟨none, []⟩ : GolangRuntime Unit) Sample.ctx
        Sample.jsonEnvelope ()).targetType ≠ (⟨none, []⟩ : GolangRuntime Unit).TargetType ∧
     (ProcessMessage Sample.codec (⟨none, []⟩ : GolangRuntime Unit) Sample.ctx
        Sample.jsonEnvelope ()).logged =
       [{ level := .debug, message := "Processing message: 0 Transforms", args := [] }]) ∧
    (decodeCBOR Sample.codec .event Sample.nullCborEnvelope.Payload = .ok none ∧
     (ProcessMessage Sample.codec (⟨none, []⟩ : GolangRuntime Unit) Sample.ctx
        Sample.nullCborEnvelope ()).panicked = true ∧
     (ProcessMessage Sample.codec (⟨none, []⟩ : GolangRuntime Unit) Sample.ctx
        Sample.nullCborEnvelope ()).decodes = [.cbor] ∧
     (ProcessMessage Sample.codec (⟨none, []⟩ : GolangRuntime Unit) Sample.ctx
        Sample.nullCborEnvelope ()).ctx =
       { CorrelationID := "corr", EventID := "e0", EventChecksum := "chk"
         RetryData := none }) := by
  refine ⟨⟨rfl, rfl, rfl, ?_, by decide⟩, ⟨rfl, rfl, rfl, rfl⟩⟩
  intro h
  exact Option.noConfusion h

theorem runTransforms_stop_calls {σ : Type} (envelope : MessageEnvelope) (target : Value)
    (contentType : String) (f : AppFunction σ) (post : List (AppFunction σ)) (index : Nat)
    (st : LoopState σ) (hc : (invoke target contentType f st).cont = false) :
    (runTransforms envelope target contentType (f :: post) index st.result st.ctx
        st.world).calls =
      [{ index := index, fn := f, ctx := st.ctx
         args := callArgs target contentType st.result, cont := false
         result := (invoke target contentType f st).result }] := by
  simp only [invoke] at hc
  simp only [runTransforms, invoke, hc]
  cases h : (f st.ctx (callArgs target contentType st.result) st.world).result.bind
    Value.asError <;> simp

theorem runTransforms_args {σ : Type} (envelope : MessageEnvelope) (target : Value)
    (contentType : String) (fs : List (AppFunction σ)) :
    ∀ (index : Nat) (result : GoAny) (ctx : Context) (w : σ) (i : Nat) (c : Call σ),
      (runTransforms envelope target contentType fs index result ctx w).calls[i]? = some c →
      c.index = index + i ∧
      (i = 0 → c.args = callArgs target contentType result) ∧
      (∀ j p, i = j + 1 →
        (runTransforms envelope target contentType fs index result ctx w).calls[j]? = some p →
        c.args = callArgs target contentType p.result) := by
  induction fs with
  | nil => intro index result ctx w i c h; simp [runTransforms] at h
  | cons f rest ih =>
    intro index result ctx w i c h
    cases hc : (invoke target contentType f ⟨result, ctx, w⟩).cont with
    | false =>
      have hs := runTransforms_stop_calls envelope target contentType f rest index
        ⟨result, ctx, w⟩ hc
      simp only at hs
      rw [hs] at h ⊢
      cases i with
      | zero =>
        simp only [List.getElem?_cons_zero, Option.some.injEq] at h
        subst h
        exact ⟨rfl, fun _ => rfl, fun j p hj => absurd hj (by omega)⟩
      | succ i => simp at h
    | true =>
      have hs := runTransforms_continue envelope target contentType f rest index
        ⟨result, ctx, w⟩ hc
      simp only at hs
      rw [hs] at h ⊢
      cases i with
      | zero =>
        simp only [List.getElem?_cons_zero, Option.some.injEq] at h
        subst h
        exact ⟨rfl, fun _ => rfl, fun j p hj => absurd hj (by omega)⟩
      | succ i =>
        simp only [List.getElem?_cons_succ] at h
        obtain ⟨i1, i2, i3⟩ := ih (index + 1) _ _ _ i c h
        refine ⟨by omega, fun h0 => absurd h0 (by omega), ?_⟩
        intro j p hj hp
        have hji : j = i := by omega
        subst hji
        cases j with
        | zero =>
          simp only [List.getElem?_cons_zero, Option.some.injEq] at hp
          subst hp
          exact i2 rfl
        | succ j =>
          simp only [List.getElem?_cons_succ] at hp
          exact i3 j p rfl hp

/-- C3, as the code has it: after a successful decode the call at position `i` of a run
carries index `i`; the call at position 0 receives the decoded target and the content
type; the call at a position `j + 1` receives the result returned at position `j` alone
when that result is not nil, and the decoded target and the content type again when that
result is nil. -/
theorem ProcessMessage_call_arguments {σ : Type} (codec : Codec) (gr : GolangRuntime σ)
    (ctx : Context) (envelope : MessageEnvelope) (w : σ) (elem : GoType) (dec : Decoded)
    (hT : defaultTargetType gr.TargetType = ⟨.ptr elem, false⟩)
    (hdec : (decodeTarget codec elem ctx envelope).outcome = .ok dec) :
    ∀ i c, (ProcessMessage codec gr ctx envelope w).calls[i]? = some c →
      c.index = i ∧
      (i = 0 → c.args = [some dec.target, some (.str dec.contentType)]) ∧
      (∀ j p, i = j + 1 → (ProcessMessage codec gr ctx envelope w).calls[j]? = some p →
        (∀ v, p.result = some v → c.args = [some v]) ∧
        (p.result = none → c.args = [some dec.target, some (.str dec.contentType)])) := by
  intro i c hc
  obtain ⟨_, _, _, _, e5⟩ := ProcessMessage_fields codec gr ctx envelope w elem dec hT hdec
  rw [e5] at hc ⊢
  obtain ⟨h1, h2, h3⟩ :=
    runTransforms_args envelope dec.target dec.contentType gr.transforms 0 none dec.ctx w i c hc
  refine ⟨by omega, fun h0 => h2 h0, ?_⟩
  intro j p hj hp
  have h := h3 j p hj hp
  constructor
  · intro v hv
    rw [h, hv]; rfl
  · intro hn
    rw [h, hn]; rfl

theorem ProcessMessage_call_arguments_witness :
    (∀ v, (some (Value.str "next") : GoAny) = some v →
      ([some (.str "next")] : List GoAny) = [some v]) ∧
    ((none : GoAny) = none →
      ([some (.event ⟨"ev1", ""⟩), some (.str "")] : List GoAny) =
        [some Sample.decodedEvent.target, some (.str Sample.decodedEvent.contentType)]) :=
  ⟨((ProcessMessage_call_arguments Sample.codec
      ⟨none, [Sample.passText, Sample.passNil, Sample.passNil]⟩ Sample.ctx
      Sample.jsonEnvelope () .event Sample.decodedEvent rfl rfl 1
      { index := 1, fn := Sample.passNil, ctx := Sample.decodedEvent.ctx
        args := [some (.str "next")], cont := true, result := none } rfl).2.2 0
      { index := 0, fn := Sample.passText, ctx := Sample.decodedEvent.ctx
        args := [some (.event ⟨"ev1", ""⟩), some (.str "")], cont := true
        result := some (.str "next") } rfl rfl).1,
   ((ProcessMessage_call_arguments Sample.codec
      ⟨none, [Sample.passText, Sample.passNil, Sample.passNil]⟩ Sample.ctx
      Sample.jsonEnvelope () .event Sample.decodedEvent rfl rfl 2
      { index := 2, fn := Sample.passNil, ctx := Sample.decodedEvent.ctx
        args := [some (.event ⟨"ev1", ""⟩), some (.str "")], cont := true
        result := none } rfl).2.2 1
      { index := 1, fn := Sample.passNil, ctx := Sample.decodedEvent.ctx
        args := [some (.str "next")], cont := true, result := none } rfl rfl).2⟩

/-- C3, as the claim has it, fails: in the run of the chain `[passNil, passNil]` on a JSON
event the first function continues with a nil result, and the second function is called
with the decoded event and the content type, not with that nil result. -/
theorem ProcessMessage_nil_result_not_forwarded :
    (ProcessMessage Sample.codec ⟨none, [Sample.passNil, Sample.passNil]⟩ Sample.ctx
        Sample.jsonEnvelope ()).calls.map (fun c => (c.index, c.cont, c.result, c.args)) =
      [(0, true, none, [some (.event ⟨"ev1", ""⟩), some (.str "")]),
       (1, true, none, [some (.event ⟨"ev1", ""⟩), some (.str "")])] ∧
    ¬ (∀ i c p,
        (ProcessMessage Sample.codec ⟨none, [Sample.passNil, Sample.passNil]⟩ Sample.ctx
          Sample.jsonEnvelope ()).calls[i + 1]? = some c →
        (ProcessMessage Sample.codec ⟨none, [Sample.passNil, Sample.passNil]⟩ Sample.ctx
          Sample.jsonEnvelope ()).calls[i]? = some p →
        c.args = [p.result]) := by
  refine ⟨rfl, ?_⟩
  intro h
  have h0 := h 0 _ _ rfl rfl
  revert h0
  decide

/-! ### The delivery sender -/

/-- C10: for every sender (a zero-valued one included), every transport and every
context, `MQTTSend` called with no input (no parameter at all, or a nil first parameter)
returns continue=false with an error whose text is exactly "No Data Received", attempts
no delivery and leaves the context, and so its retry-data slot, as it was. -/
theorem MQTTSend_no_data (t : Transport) (sender : MQTTSender) (ctx : Context) :
    MQTTSend t sender ctx [] =
      { cont := false, result := some (.error ⟨"No Data Received"⟩), ctx := ctx
        attempts := [] } ∧
    (∀ rest, MQTTSend t sender ctx (none :: rest) =
      { cont := false, result := some (.error ⟨"No Data Received"⟩), ctx := ctx
        attempts := [] }) ∧
    (MQTTSend t sender ctx []).ctx.RetryData = ctx.RetryData ∧
    (MQTTSend t ⟨none, "", false⟩ ctx []).result.bind Value.asError =
      some ⟨"No Data Received"⟩ :=
  ⟨rfl, fun _ => rfl, rfl, rfl⟩

end Runtime

/-! ### The transform registry under interleaving -/

namespace Registry

theorem take_map_prefix (chain : List Fn) (idx : Nat) :
    (chain.take idx).map some <+: chain.map some :=
  ⟨(chain.drop idx).map some, by rw [← List.map_append, List.take_append_drop]⟩

theorem threadOk_frame (cands : List (List Fn)) (tr tr1 : List Fn) (th : Thread)
    (hh : th.holds = false) (hok : ThreadOk cands tr th) : ThreadOk cands tr1 th := by
  cases th with
  | set pc chain => exact hok
  | run pc installed invoked =>
    cases pc with
    | start => exact hok
    | locked => simp [Thread.holds] at hh
    | copying buf j => simp [Thread.holds] at hh
    | copied buf => simp [Thread.holds] at hh
    | looping buf idx => exact hok
    | done => exact hok

theorem inv_update (cands : List (List Fn)) (s : System) (tid : Nat) (th th1 : Thread)
    (tr1 : List Fn) (lock1 : Option Nat) (hinv : Inv cands s)
    (hth : s.threads[tid]? = some th)
    (hexcl : (tr1 = s.transforms ∧ lock1 = s.lock) ∨ s.lock = none ∨ s.lock = some tid)
    (htr : tr1 ∈ cands) (hok : ThreadOk cands tr1 th1)
    (hlock : th1.holds = true → lock1 = some tid) :
    Inv cands { transforms := tr1, lock := lock1, threads := s.threads.set tid th1 } := by
  refine ⟨htr, ?_⟩
  intro tid1 th2 h
  simp only [List.getElem?_set] at h
  by_cases ht : tid = tid1
  · subst ht
    have hlt : tid < s.threads.length := by
      by_contra hge
      rw [List.getElem?_eq_none (by omega)] at hth
      exact Option.noConfusion hth
    simp only [if_true, hlt, Option.some.injEq] at h
    subst h
    exact ⟨hlock, hok⟩
  · simp only [ht, if_false] at h
    obtain ⟨hl, ho⟩ := hinv.2 tid1 th2 h
    rcases hexcl with ⟨h1, h2⟩ | hn | hs
    · subst h1; subst h2
      exact ⟨hl, ho⟩
    · have hnh : th2.holds = false := by
        cases hb : th2.holds with
        | false => rfl
        | true => rw [hn] at hl; exact Option.noConfusion (hl hb)
      exact ⟨fun hb => by rw [hnh] at hb; exact Bool.noConfusion hb,
        threadOk_frame cands _ _ th2 hnh ho⟩
    · have hnh : th2.holds = false := by
        cases hb : th2.holds with
        | false => rfl
        | true =>
          have := hl hb
          rw [hs] at this
          exact absurd (Option.some.inj this) ht
      exact ⟨fun hb => by rw [hnh] at hb; exact Bool.noConfusion hb,
        threadOk_frame cands _ _ th2 hnh ho⟩

theorem step_inv (cands : List (List Fn)) (s : System) (tid : Nat) (stop : Bool)
    (hinv : Inv cands s) : Inv cands (step s tid stop) := by
  unfold step
  split
  · exact hinv
  · rename_i installed invoked hth
    obtain ⟨_, hok⟩ := hinv.2 tid _ hth
    split
    · rename_i hl
      exact inv_update cands s tid _ _ _ _ hinv hth (Or.inr (Or.inl hl)) hinv.1
        ⟨rfl, hok.2⟩ (fun _ => rfl)
    · exact hinv
  · rename_i installed invoked hth
    obtain ⟨hl, hok⟩ := hinv.2 tid _ hth
    exact inv_update cands s tid _ _ _ _ hinv hth (Or.inl ⟨rfl, rfl⟩) hinv.1
      ⟨hok.1, hok.2, by simp, Nat.zero_le _, fun i hi => absurd hi (Nat.not_lt_zero i)⟩
      (fun _ => hl rfl)
  · rename_i buf j installed invoked hth
    obtain ⟨hl, h1, h2, h3, h4, h5⟩ := hinv.2 tid _ hth
    split
    · rename_i hj
      have hjb : j < buf.length := by omega
      refine inv_update cands s tid _ _ _ _ hinv hth (Or.inl ⟨rfl, rfl⟩) hinv.1
        ⟨h1, h2, by simp [h3], by omega, ?_⟩ (fun _ => hl rfl)
      intro i hi
      simp only [List.getElem?_set]
      by_cases hji : j = i
      · subst hji; simp [hjb]
      · simp only [hji, if_false]
        exact h5 i (by omega)
    · rename_i hj
      have hjl : j = s.transforms.length := by omega
      refine inv_update cands s tid _ _ _ _ hinv hth (Or.inl ⟨rfl, rfl⟩) hinv.1
        ⟨h1, h2, ?_⟩ (fun _ => hl rfl)
      apply List.ext_getElem?
      intro n
      by_cases hn : n < s.transforms.length
      · rw [h5 n (by omega), List.getElem?_map, List.getElem?_eq_getElem hn]
        rfl
      · rw [List.getElem?_eq_none (by omega), List.getElem?_eq_none (by simp; omega)]
  · rename_i buf installed invoked hth
    obtain ⟨hl, h1, h2, h3⟩ := hinv.2 tid _ hth
    exact inv_update cands s tid _ _ _ _ hinv hth (Or.inr (Or.inr (hl rfl))) hinv.1
      ⟨s.transforms, h1, hinv.1, h3, by simp [h2]⟩
      (fun hb => by simp [Thread.holds] at hb)
  · rename_i buf idx installed invoked hth
    obtain ⟨_, chain, h1, h2, h3, h4⟩ := hinv.2 tid _ hth
    split
    · exact inv_update cands s tid _ _ _ _ hinv hth (Or.inl ⟨rfl, rfl⟩) hinv.1
        ⟨chain, h1, h2, by rw [h4]; exact take_map_prefix chain _⟩
        (fun hb => by simp [Thread.holds] at hb)
    · rename_i trxFunc hb
      have hnext : invoked ++ [trxFunc] = (chain.take (idx + 1)).map some := by
        rw [h3, List.getElem?_map] at hb
        cases hc : chain[idx]? with
        | none => rw [hc] at hb; exact Option.noConfusion hb
        | some x =>
          rw [hc] at hb
          simp only [Option.map_some', Option.some.injEq] at hb
          rw [List.take_succ, hc, h4, ← hb]
          simp
      split
      · exact inv_update cands s tid _ _ _ _ hinv hth (Or.inl ⟨rfl, rfl⟩) hinv.1
          ⟨chain, h1, h2, by rw [hnext]; exact take_map_prefix chain _⟩
          (fun hb => by simp [Thread.holds] at hb)
      · exact inv_update cands s tid _ _ _ _ hinv hth (Or.inl ⟨rfl, rfl⟩) hinv.1
          ⟨chain, h1, h2, h3, hnext⟩ (fun hb => by simp [Thread.holds] at hb)
  · exact hinv
  · rename_i chain hth
    obtain ⟨_, hok⟩ := hinv.2 tid _ hth
    split
    · rename_i hl
      exact inv_update cands s tid _ _ _ _ hinv hth (Or.inr (Or.inl hl)) hinv.1 hok
        (fun _ => rfl)
    · exact hinv
  · rename_i chain hth
    obtain ⟨hl, hok⟩ := hinv.2 tid _ hth
    exact inv_update cands s tid _ _ _ _ hinv hth (Or.inr (Or.inr (hl rfl))) hok hok
      (fun _ => hl rfl)
  · rename_i chain hth
    obtain ⟨hl, hok⟩ := hinv.2 tid _ hth
    exact inv_update cands s tid _ _ _ _ hinv hth (Or.inr (Or.inr (hl rfl))) hinv.1 hok
      (fun hb => by simp [Thread.holds] at hb)
  · exact hinv

theorem exec_inv (cands : List (List Fn)) (sched : List (Nat × Bool)) :
    ∀ s, Inv cands s → Inv cands (exec s sched) := by
  induction sched with
  | nil => intro s h; exact h
  | cons p rest ih =>
    intro s h
    obtain ⟨tid, stop⟩ := p
    exact ih _ (step_inv cands s tid stop h)

theorem initial_inv (s : System) (h0 : s.initial = true) : Inv s.chains s := by
  simp only [System.initial, Bool.and_eq_true, List.all_eq_true] at h0
  refine ⟨List.mem_cons_self _ _, ?_⟩
  intro tid th hth
  have hmem : th ∈ s.threads := List.mem_iff_getElem?.2 ⟨tid, hth⟩
  have hf := h0.2 th hmem
  cases th with
  | set pc chain =>
    cases pc with
    | start =>
      refine ⟨fun hb => by simp [Thread.holds] at hb, ?_⟩
      exact List.mem_cons_of_mem _ (List.mem_filterMap.2 ⟨_, hmem, rfl⟩)
    | locked => simp [Thread.fresh] at hf
    | assigned => simp [Thread.fresh] at hf
    | done => simp [Thread.fresh] at hf
  | run pc installed invoked =>
    cases pc with
    | start =>
      refine ⟨fun hb => by simp [Thread.holds] at hb, ?_⟩
      cases installed with
      | some c => simp [Thread.fresh] at hf
      | none =>
        cases invoked with
        | nil => exact ⟨rfl, rfl⟩
        | cons a l => simp [Thread.fresh] at hf
    | locked => simp [Thread.fresh] at hf
    | copying buf j => simp [Thread.fresh] at hf
    | copied buf => simp [Thread.fresh] at hf
    | looping buf idx => simp [Thread.fresh] at hf
    | done => simp [Thread.fresh] at hf

/-- C9: start from any system in which the lock is free and no thread has started, with
any number of runs of `ProcessMessage` and of calls of `SetTransforms`, and interleave
their statements in any order. At every moment, the functions a run has invoked are an
initial segment of one single chain, none of them nil; that chain is the chain the
registry held when the run took the lock for its copy, and it is the chain present at
the beginning or the argument of one call of `SetTransforms`. The registry itself always
holds one of these chains as a whole. -/
theorem snapshot_isolation (s0 : System) (sched : List (Nat × Bool)) (tid : Nat)
    (pc : RunPC) (installed : Option (List Fn)) (invoked : List (Option Fn))
    (h0 : s0.initial = true)
    (hth : (exec s0 sched).threads[tid]? = some (.run pc installed invoked)) :
    (∃ chain ∈ s0.chains, invoked <+: chain.map some ∧
      (invoked ≠ [] → installed = some chain)) ∧
    (exec s0 sched).transforms ∈ s0.chains := by
  have hinv := exec_inv s0.chains sched s0 (initial_inv s0 h0)
  refine ⟨?_, hinv.1⟩
  obtain ⟨_, hok⟩ := hinv.2 tid _ hth
  cases pc with
  | start =>
    exact ⟨s0.transforms, List.mem_cons_self _ _, by rw [hok.2]; exact List.nil_prefix,
      fun hne => absurd hok.2 hne⟩
  | locked =>
    exact ⟨s0.transforms, List.mem_cons_self _ _, by rw [hok.2]; exact List.nil_prefix,
      fun hne => absurd hok.2 hne⟩
  | copying buf j =>
    exact ⟨s0.transforms, List.mem_cons_self _ _, by rw [hok.2.1]; exact List.nil_prefix,
      fun hne => absurd hok.2.1 hne⟩
  | copied buf =>
    exact ⟨s0.transforms, List.mem_cons_self _ _, by rw [hok.2.1]; exact List.nil_prefix,
      fun hne => absurd hok.2.1 hne⟩
  | looping buf idx =>
    obtain ⟨chain, h1, h2, _, h4⟩ := hok
    exact ⟨chain, h2, by rw [h4]; exact take_map_prefix chain _, fun _ => h1⟩
  | done =>
    obtain ⟨chain, h1, h2, h3⟩ := hok
    exact ⟨chain, h2, h3, fun _ => h1⟩

theorem snapshot_isolation_witness :
    (∃ chain ∈ sampleSystem.chains, [some 1, some 2] <+: chain.map some ∧
      (([some 1, some 2] : List (Option Fn)) ≠ [] → some [1, 2] = some chain)) ∧
    (exec sampleSystem sampleSchedule).transforms ∈ sampleSystem.chains :=
  snapshot_isolation sampleSystem sampleSchedule 0 .done (some [1, 2]) [some 1, some 2]
    (by decide) (by decide)

end Registry
